import Mathlib

/-!
Verification development for the deal-matching core of the meal_assistant
repository: regex-based deal extraction (`deal_parser_regex.py`),
template-based extraction (`deal_parser_template.py`), the ML deal matcher's
string-similarity features and training guards (`deal_matcher.py`), the
accuracy tracker's target-date projection (`accuracy_tracker.py`), and the
progressive-learning state machine (`progressive_learning.py`).

Python text is modelled over `List Char`; Python floats are modelled as
exact rationals (`ℚ`), which agrees with the source on every decimal value
exercised here; Python exceptions are modelled with `Except String`.
The regular expressions compiled by the source are embedded as explicit
syntax trees (`RE`) and executed by a backtracking matcher with Python's
`re` semantics for these patterns: leftmost match, greedy quantifiers,
alternatives tried left to right.
-/

-- Lean's core rational operations are `irreducible`, which blocks `decide`
-- on concrete runs of the embedded code; restore default reducibility.
attribute [local semireducible] Rat.add Rat.mul Rat.inv Rat.sub

/-- ASCII decimal digit, Python's `\d` for this code's ASCII-only inputs. -/
def pyIsDigit (c : Char) : Bool := '0' ≤ c ∧ c ≤ '9'

/-- ASCII whitespace, Python's `\s` for ASCII text: space and `\t\n\v\f\r`. -/
def pyIsSpace (c : Char) : Bool :=
  c = ' ' ∨ c = '\t' ∨ c = '\n' ∨ c = '\x0b' ∨ c = '\x0c' ∨ c = '\r'

/-- ASCII letter; with `re.IGNORECASE` the class `[A-Z]` matches these. -/
def pyIsAlpha (c : Char) : Bool := ('a' ≤ c ∧ c ≤ 'z') ∨ ('A' ≤ c ∧ c ≤ 'Z')

/-- ASCII upper-case letter: the class `[A-Z]` without `re.IGNORECASE`. -/
def pyIsUpper (c : Char) : Bool := 'A' ≤ c ∧ c ≤ 'Z'

/-- Python `\w` on ASCII text: letters, digits and underscore. -/
def pyIsWord (c : Char) : Bool := pyIsAlpha c ∨ pyIsDigit c ∨ c = '_'

/-- Case-folding used to model `re.IGNORECASE` literal comparison. -/
def lowC (c : Char) : Char := Char.toLower c

/-- Regular-expression syntax trees for the patterns the source compiles.
Sequencing is explicit so the matcher is structurally recursive. -/
inductive RE where
  | eps : RE
  | seq (a b : RE) : RE
  | lit (cs : List Char) : RE
  | cls (f : Char → Bool) (lo : Nat) (hi : Option Nat) : RE
  | grp (idx : Nat) (r : RE) : RE
  | opt (r : RE) : RE
  | alt (a b : RE) : RE
  | wordB : RE
  | lineStart (multiline : Bool) : RE
  | lineEnd (multiline : Bool) : RE

/-- Sequence a list of regex elements. -/
def reSeq (rs : List RE) : RE := rs.foldr RE.seq RE.eps

/-- Matcher context: previous character (for `\b` and `^`), remaining
input, and absolute position in the cleaned text. -/
structure RCtx where
  prev : Option Char
  rest : List Char
  pos : Nat

/-- Captured groups, in order of completion: (group index, captured text). -/
abbrev Caps := List (Nat × List Char)

/-- Longest prefix of `l` satisfying `f`, capped at `hi` characters. -/
def takeCls (f : Char → Bool) (hi : Option Nat) : List Char → Nat
  | [] => 0
  | c :: cs =>
    if hi = some 0 then 0
    else if f c then takeCls f (hi.map (· - 1)) cs + 1 else 0

/-- Advance a context by `n` characters. -/
def RCtx.adv (ctx : RCtx) (n : Nat) : RCtx :=
  { prev := (ctx.rest.take n).getLast? <|> ctx.prev
    rest := ctx.rest.drop n
    pos := ctx.pos + n }

/-- Does `rest` start with literal `cs` (case-insensitively when `ci`)? -/
def litHere (ci : Bool) (cs rest : List Char) : Bool :=
  match cs, rest with
  | [], _ => true
  | _ :: _, [] => false
  | c :: cs, r :: rs => (if ci then lowC c = lowC r else c = r) && litHere ci cs rs

/-- Backtracking matcher in continuation-passing style.  Returns every way
to match `r` at `ctx`, in Python `re` priority order (greedy quantifiers,
left alternative first); callers take the head.  `ci` is `re.IGNORECASE`. -/
def reM (ci : Bool) : RE → RCtx → Caps → (RCtx → Caps → List (RCtx × Caps)) →
    List (RCtx × Caps)
  | .eps, ctx, caps, k => k ctx caps
  | .seq a b, ctx, caps, k => reM ci a ctx caps (fun c' caps' => reM ci b c' caps' k)
  | .lit cs, ctx, caps, k =>
    if litHere ci cs ctx.rest then k (ctx.adv cs.length) caps else []
  | .cls f lo hi, ctx, caps, k =>
    let most := takeCls f hi ctx.rest
    if most < lo then []
    else
      -- greedy: longest viable repetition first
      (List.range (most + 1 - lo)).flatMap (fun i => k (ctx.adv (most - i)) caps)
  | .grp idx r, ctx, caps, k =>
    reM ci r ctx caps (fun c' caps' =>
      k c' (caps' ++ [(idx, ctx.rest.take (c'.pos - ctx.pos))]))
  | .opt r, ctx, caps, k => reM ci r ctx caps k ++ k ctx caps
  | .alt a b, ctx, caps, k => reM ci a ctx caps k ++ reM ci b ctx caps k
  | .wordB, ctx, caps, k =>
    let pw := match ctx.prev with | none => false | some c => pyIsWord c
    let nw := match ctx.rest with | [] => false | c :: _ => pyIsWord c
    if pw ≠ nw then k ctx caps else []
  | .lineStart ml, ctx, caps, k =>
    if ctx.pos = 0 ∨ (ml ∧ ctx.prev = some '\n') then k ctx caps else []
  | .lineEnd ml, ctx, caps, k =>
    match ctx.rest with
    | [] => k ctx caps
    | c :: _ => if ml ∧ c = '\n' then k ctx caps else []

/-- One regex match: span in the cleaned text, matched text, captures. -/
structure RMatch where
  mstart : Nat
  mstop : Nat
  matched : List Char
  caps : Caps

/-- `match.group n` (our patterns bind each group at most once). -/
def RMatch.group (m : RMatch) (n : Nat) : Option (List Char) :=
  (m.caps.find? (fun p => p.1 = n)).map (·.2)

/-- `re.finditer` scan: leftmost non-overlapping matches; after an empty
match the scan advances one character.  `fuel` bounds the loop and is
always supplied as more than the input length. -/
def reFindFrom (ci : Bool) (r : RE) : Nat → RCtx → List RMatch
  | 0, _ => []
  | fuel + 1, ctx =>
    match (reM ci r ctx [] (fun c' caps => [(c', caps)])).head? with
    | some (c', caps) =>
      let len := c'.pos - ctx.pos
      let m : RMatch := ⟨ctx.pos, c'.pos, ctx.rest.take len, caps⟩
      if len = 0 then
        m :: (match ctx.rest with
          | [] => []
          | ch :: rs => reFindFrom ci r fuel ⟨some ch, rs, ctx.pos + 1⟩)
      else m :: reFindFrom ci r fuel c'
    | none =>
      match ctx.rest with
      | [] => []
      | ch :: rs => reFindFrom ci r fuel ⟨some ch, rs, ctx.pos + 1⟩

/-- All matches of `r` in `text`, Python `re.finditer` order. -/
def reFinditer (ci : Bool) (r : RE) (text : List Char) : List RMatch :=
  reFindFrom ci r (text.length + 1) ⟨none, text, 0⟩

/-- First match anywhere, Python `re.search`. -/
def reSearch (ci : Bool) (r : RE) (text : List Char) : Option RMatch :=
  (reFinditer ci r text).head?

/-- Match anchored at the start, Python `re.match`. -/
def reMatchAt (ci : Bool) (r : RE) (text : List Char) : Option RMatch :=
  match (reM ci r ⟨none, text, 0⟩ [] (fun c' caps => [(c', caps)])).head? with
  | some (c', caps) => some ⟨0, c'.pos, text.take c'.pos, caps⟩
  | none => none

-- sanity checks of the engine on the source's own pattern shapes
example :
    (reFinditer true (reSeq [.lit ['$'],
        .grp 1 (reSeq [.cls pyIsDigit 1 none,
          .opt (reSeq [.lit ['.'], .cls pyIsDigit 2 (some 2)])])])
      "see $6.00 now".toList).map (fun m => (m.mstart, m.mstop)) = [(4, 9)] := by
  decide

example :
    ((reSearch true (reSeq [.wordB, .lit "bogo".toList, .wordB])
      "a BOGO deal".toList).map (fun m => m.matched)) = some "BOGO".toList := by
  decide

/-! ## Shared text utilities (Python `str` methods used by the source) -/

/-- Shorthand: Lean string literal to the `List Char` text representation. -/
def cs (s : String) : List Char := s.toList

/-- Python `str.strip()`: drop leading and trailing whitespace. -/
def pyStrip (l : List Char) : List Char :=
  ((l.dropWhile pyIsSpace).reverse.dropWhile pyIsSpace).reverse

/-- Python `str.lower()` (ASCII). -/
def pyLower (l : List Char) : List Char := l.map lowC

/-- Python `str.split()` with no separator: split on whitespace runs,
dropping empty pieces. -/
def pySplitWsGo : List Char → List Char → List (List Char)
  | [], acc => if acc = [] then [] else [acc.reverse]
  | c :: rest, acc =>
    if pyIsSpace c then
      if acc = [] then pySplitWsGo rest [] else acc.reverse :: pySplitWsGo rest []
    else pySplitWsGo rest (c :: acc)

def pySplitWs (l : List Char) : List (List Char) := pySplitWsGo l []

/-- Python `sep in s` / `str.__contains__`: `sub` occurs inside `l`. -/
def listHasPrefix : List Char → List Char → Bool
  | [], _ => true
  | _ :: _, [] => false
  | c :: cs, r :: rs => c = r && listHasPrefix cs rs

def containsList (l sub : List Char) : Bool :=
  match l with
  | [] => sub.isEmpty
  | _ :: rest => listHasPrefix sub l || containsList rest sub

/-- Python `str.split(sep)` for a non-empty separator `sep` (fuel-driven
so that the definition evaluates inside the kernel). -/
def pySplitOnGo (sep : List Char) : Nat → List Char → List Char → List (List Char)
  | 0, _, acc => [acc.reverse]
  | _ + 1, [], acc => [acc.reverse]
  | fuel + 1, c :: rest, acc =>
    if listHasPrefix sep (c :: rest) then
      acc.reverse :: pySplitOnGo sep fuel (List.drop (sep.length - 1) rest) []
    else pySplitOnGo sep fuel rest (c :: acc)

def pySplitOn (sep l : List Char) : List (List Char) :=
  pySplitOnGo sep (l.length + 1) l []

/-- Python `str.title()`: a letter after a non-letter is upper-cased, other
letters are lower-cased. -/
def pyTitleGo : Bool → List Char → List Char
  | _, [] => []
  | prevAlpha, c :: rest =>
    (if pyIsAlpha c then (if prevAlpha then Char.toLower c else Char.toUpper c) else c)
      :: pyTitleGo (pyIsAlpha c) rest

def pyTitle (l : List Char) : List Char := pyTitleGo false l

/-- Numeric value of a digit string. -/
def digitsVal (l : List Char) : ℕ := l.foldl (fun a c => a * 10 + (c.toNat - 48)) 0

/-- `float(s)` on the decimal captures produced by these patterns
(`\d+` optionally followed by `.` and digits), as an exact rational. -/
def parseDecQ (l : List Char) : ℚ :=
  let ip := l.takeWhile pyIsDigit
  let rest := l.dropWhile pyIsDigit
  match rest with
  | '.' :: fr =>
    let fd := fr.takeWhile pyIsDigit
    mkRat (digitsVal ip * 10 ^ fd.length + digitsVal fd) (10 ^ fd.length)
  | _ => (digitsVal ip : ℚ)

/-- `float(s)` under `try/except`: `some` only for the shapes above. -/
def parseDecQ? (l : List Char) : Option ℚ :=
  let ip := l.takeWhile pyIsDigit
  let rest := l.dropWhile pyIsDigit
  match rest with
  | [] => if ip = [] then none else some (parseDecQ l)
  | '.' :: fr =>
    if ip = [] ∨ fr = [] ∨ ¬(fr.all pyIsDigit) then none else some (parseDecQ l)
  | _ => none

/-- `int(s)` on a `\d+` capture. -/
def parseNatD (l : List Char) : ℕ := digitsVal l

/-- Python truthiness of an optional float (`None` and `0.0` are falsy). -/
def pyTruthyQ : Option ℚ → Bool
  | none => false
  | some q => q ≠ 0

/-- Python truthiness of an optional string (`None` and `""` are falsy). -/
def pyTruthyS : Option (List Char) → Bool
  | none => false
  | some s => ¬s.isEmpty

/-- Python truthiness of an optional int (`None` and `0` are falsy). -/
def pyTruthyN : Option ℕ → Bool
  | none => false
  | some n => n ≠ 0

/-! ## Data model (`deal_parser_regex.py`) -/

/-- `DealType` enum. -/
inductive DealType where
  | price | unitPrice | multiBuy | bogo | saveAmount | percentOff
  | memberPrice | unknown
  deriving DecidableEq, Repr

/-- `DealType(value)` string values. -/
def DealType.value : DealType → List Char
  | .price => cs "price"
  | .unitPrice => cs "unit_price"
  | .multiBuy => cs "multi_buy"
  | .bogo => cs "bogo"
  | .saveAmount => cs "save_amount"
  | .percentOff => cs "percent_off"
  | .memberPrice => cs "member_price"
  | .unknown => cs "unknown"

/-- `DealType(s)` lookup, `none` when `s` is not a member value. -/
def DealType.ofValue? (s : List Char) : Option DealType :=
  ([.price, .unitPrice, .multiBuy, .bogo, .saveAmount, .percentOff,
    .memberPrice, .unknown] : List DealType).find? (fun dt => dt.value = s)

/-- The `metadata` dict entries this code reads or writes. -/
structure DealMeta where
  pattern : Option (List Char) := none
  store : Option (List Char) := none
  source : Option (List Char) := none
  totalPrice : Option ℚ := none
  buyQuantity : Option ℕ := none
  getQuantity : Option ℕ := none
  patternId : Option (List Char) := none
  blockIndex : Option ℕ := none
  category : Option (List Char) := none
  deriving DecidableEq, Repr

/-- `ExtractedDeal` dataclass. -/
structure ExtractedDeal where
  rawText : List Char
  dealType : DealType
  productName : Option (List Char) := none
  price : Option ℚ := none
  unit : Option (List Char) := none
  quantity : Option ℕ := none
  discountAmount : Option ℚ := none
  discountPercent : Option ℚ := none
  originalPrice : Option ℚ := none
  confidence : ℚ := 0
  position : ℕ × ℕ := (0, 0)
  metadata : DealMeta := {}
  deriving DecidableEq, Repr


/-! ## `RegexDealParser` (`deal_parser_regex.py`)

All pattern families are compiled with `re.IGNORECASE`, including the
product-name patterns, so `ci := true` throughout this component. -/

namespace RegexDealParser

/-- `(\d+(?:\.\d{2})?)` as capture group `n`. -/
def priceGrp (n : Nat) : RE :=
  .grp n (reSeq [.cls pyIsDigit 1 none,
    .opt (reSeq [.lit (cs "."), .cls pyIsDigit 2 (some 2)])])

/-- `\s*` -/
def sp0 : RE := .cls pyIsSpace 0 none

/-- `\s+` -/
def sp1 : RE := .cls pyIsSpace 1 none

/-- `PRICE_PATTERNS`, specific unit-suffixed variants first. -/
def PRICE_PATTERNS : List (RE × List Char) :=
  [ (reSeq [.lit (cs "$"), priceGrp 1, sp0, .lit (cs "/"), sp0,
      .alt (.lit (cs "lb")) (.alt (.lit (cs "pound")) (.lit (cs "lbs")))],
      cs "unit_price_lb"),
    (reSeq [.lit (cs "$"), priceGrp 1, sp0, .lit (cs "/"), sp0,
      .alt (.lit (cs "oz")) (.lit (cs "ounce"))], cs "unit_price_oz"),
    (reSeq [.lit (cs "$"), priceGrp 1, sp0, .lit (cs "/"), sp0,
      .alt (.lit (cs "kg")) (.lit (cs "kilogram"))], cs "unit_price_kg"),
    (reSeq [.lit (cs "$"), priceGrp 1, sp0,
      .alt (.lit (cs "ea")) (.lit (cs "each"))], cs "unit_price_each"),
    (reSeq [.lit (cs "$"), priceGrp 1], cs "price") ]

/-- `MULTI_BUY_PATTERNS`. -/
def MULTI_BUY_PATTERNS : List (RE × List Char) :=
  [ (reSeq [.grp 1 (.cls pyIsDigit 1 none), sp0,
      .alt (.lit (cs "for")) (.lit (cs "/")), sp0, .lit (cs "$"), priceGrp 2],
      cs "multi_buy"),
    (reSeq [.lit (cs "buy"), sp1, .grp 1 (.cls pyIsDigit 1 none), sp1,
      .alt (.lit (cs "for")) (.lit (cs "@")), sp0, .lit (cs "$"), priceGrp 2],
      cs "multi_buy") ]

/-- `BOGO_PATTERNS`. -/
def BOGO_PATTERNS : List (RE × List Char) :=
  [ (reSeq [.lit (cs "buy"), sp1, .grp 1 (.cls pyIsDigit 1 none), sp1,
      .lit (cs "get"), sp1, .grp 2 (.cls pyIsDigit 1 none), sp1,
      .lit (cs "free")], cs "bogo"),
    (reSeq [.lit (cs "b"), .opt (reSeq [.lit (cs "uy"), sp0]),
      .grp 1 (.cls pyIsDigit 1 (some 1)), .lit (cs "g"),
      .opt (reSeq [.lit (cs "et"), sp0]), .grp 2 (.cls pyIsDigit 1 (some 1)),
      .lit (cs "f"), .opt (.lit (cs "ree"))], cs "bogo_short"),
    (reSeq [.wordB, .lit (cs "bogo"), .wordB], cs "bogo_simple") ]

/-- `DISCOUNT_PATTERNS`. -/
def DISCOUNT_PATTERNS : List (RE × List Char) :=
  [ (reSeq [.lit (cs "save"), sp1, .lit (cs "$"), priceGrp 1], cs "save_amount"),
    (reSeq [.grp 1 (reSeq [.cls pyIsDigit 1 none,
      .opt (reSeq [.lit (cs "."), .cls pyIsDigit 1 (some 2)])]), sp0,
      .lit (cs "%"), sp0, .lit (cs "off")], cs "percent_off"),
    (reSeq [.lit (cs "$"), priceGrp 1, sp0, .lit (cs "off")], cs "dollar_off") ]

/-- `([A-Za-z][A-Za-z\s\']{2,30})`, the repeated product-name body. -/
def productBody : RE :=
  .grp 1 (reSeq [.cls pyIsAlpha 1 (some 1),
    .cls (fun c => pyIsAlpha c ∨ pyIsSpace c ∨ c = '\'') 2 (some 30)])

/-- `PRODUCT_PATTERNS` (also compiled with `re.IGNORECASE`, so the
"all caps" class `[A-Z]` matches lower-case letters too). -/
def PRODUCT_PATTERNS : List (RE × List Char) :=
  [ (.grp 1 (reSeq [.cls pyIsAlpha 1 (some 1),
      .cls (fun c => pyIsAlpha c ∨ pyIsSpace c) 3 (some 30)]), cs "caps_product"),
    (reSeq [productBody, sp0, .lit (cs "$")], cs "product_before_price"),
    (reSeq [.cls (fun c => c = '•' ∨ c = '-') 1 (some 1), sp0, productBody],
      cs "bulleted_product") ]

/-- `STORE_PATTERNS` for the four known stores. -/
def storePatterns (store : List Char) : Option (List (RE × List Char)) :=
  if store = cs "costco" then some
    [ (reSeq [.opt (reSeq [.lit (cs "manufacturer'"), .opt (.lit (cs "s")), sp1]),
        .lit (cs "instant"), sp1, .lit (cs "saving"), .opt (.lit (cs "s")), sp1,
        .lit (cs "$"), priceGrp 1], cs "instant_savings"),
      (reSeq [.lit (cs "after"), sp1, .opt (reSeq [.lit (cs "instant"), sp1]),
        .lit (cs "saving"), .opt (.lit (cs "s")), sp1, .lit (cs "$"), priceGrp 1],
        cs "after_savings") ]
  else if store = cs "whole_foods" then some
    [ (reSeq [.lit (cs "prime"), sp1, .lit (cs "member"), sp1, .lit (cs "deal"),
        .cls (fun c => c = ':' ∨ pyIsSpace c) 1 none, .lit (cs "$"), priceGrp 1],
        cs "prime_deal"),
      (reSeq [.lit (cs "sale"), .cls (fun c => c = ':' ∨ pyIsSpace c) 1 none,
        .lit (cs "$"), priceGrp 1], cs "sale_price") ]
  else if store = cs "safeway" then some
    [ (reSeq [.lit (cs "club"), sp1, .lit (cs "price"),
        .cls (fun c => c = ':' ∨ pyIsSpace c) 1 none, .lit (cs "$"), priceGrp 1],
        cs "club_price"),
      (reSeq [.lit (cs "just"), sp1, .lit (cs "for"), sp1, .lit (cs "u"),
        .cls (fun c => c = ':' ∨ pyIsSpace c) 1 none, .lit (cs "$"), priceGrp 1],
        cs "j4u_price") ]
  else if store = cs "walmart" then some
    [ (reSeq [.lit (cs "rollback"), .cls (fun c => c = ':' ∨ pyIsSpace c) 1 none,
        .lit (cs "$"), priceGrp 1], cs "rollback"),
      (reSeq [.lit (cs "was"), sp1, .lit (cs "$"), priceGrp 1, sp0,
        .lit (cs "now"), sp1, .lit (cs "$"), priceGrp 2], cs "was_now") ]
  else none

/-- `_clean_text`, middle step: runs of two or more whitespace characters
collapse to a single space (the third correction pattern `\n{3,}` can then
never fire, so it is omitted); a lone whitespace character is kept as-is. -/
def collapseWsGo : Bool → List Char → List Char
  | _, [] => []
  | true, c :: rest =>
    if pyIsSpace c then collapseWsGo true rest else c :: collapseWsGo false rest
  | false, c :: rest =>
    if pyIsSpace c then
      match rest with
      | d :: _ =>
        if pyIsSpace d then ' ' :: collapseWsGo true rest
        else c :: collapseWsGo false rest
      | [] => [c]
    else c :: collapseWsGo false rest

/-- `_clean_text`: `¢` → " cents", collapse whitespace runs, strip. -/
def cleanText (text : List Char) : List Char :=
  pyStrip (collapseWsGo false
    (text.flatMap (fun c => if c = '¢' then cs " cents" else [c])))

/-- `_extract_prices`. -/
def extractPrices (text : List Char) : List ExtractedDeal :=
  PRICE_PATTERNS.flatMap (fun pl =>
    (reFinditer true pl.1 text).map (fun m =>
      let price := parseDecQ ((m.group 1).getD [])
      let label := pl.2
      let du : DealType × Option (List Char) :=
        if containsList label (cs "lb") then (.unitPrice, some (cs "lb"))
        else if containsList label (cs "oz") then (.unitPrice, some (cs "oz"))
        else if containsList label (cs "each") then (.unitPrice, some (cs "ea"))
        else if containsList label (cs "kg") then (.unitPrice, some (cs "kg"))
        else (.price, none)
      { rawText := m.matched, dealType := du.1, price := some price,
        unit := du.2, position := (m.mstart, m.mstop),
        metadata := { pattern := some label } }))

/-- `_extract_multi_buy`; `total_price / quantity` raises
`ZeroDivisionError` when the captured quantity is `0`. -/
def extractMultiBuy (text : List Char) : Except String (List ExtractedDeal) :=
  (MULTI_BUY_PATTERNS.flatMap (fun pl =>
      (reFinditer true pl.1 text).map (fun m => (m, pl.2)))).mapM (fun ml =>
    let m := ml.1
    let quantity := parseNatD ((m.group 1).getD [])
    let totalPrice := parseDecQ ((m.group 2).getD [])
    if quantity = 0 then .error "ZeroDivisionError"
    else .ok
      { rawText := m.matched, dealType := .multiBuy,
        price := some (totalPrice / quantity), quantity := some quantity,
        position := (m.mstart, m.mstop),
        metadata := { pattern := some ml.2, totalPrice := some totalPrice } })

/-- `_extract_bogo`. -/
def extractBogo (text : List Char) : List ExtractedDeal :=
  BOGO_PATTERNS.flatMap (fun pl =>
    (reFinditer true pl.1 text).map (fun m =>
      let bq := if pl.2 = cs "bogo" ∨ pl.2 = cs "bogo_short" then
          parseNatD ((m.group 1).getD []) else 1
      let gq := if pl.2 = cs "bogo" ∨ pl.2 = cs "bogo_short" then
          parseNatD ((m.group 2).getD []) else 1
      { rawText := m.matched, dealType := .bogo, quantity := some bq,
        position := (m.mstart, m.mstop),
        metadata := { pattern := some pl.2, buyQuantity := some bq,
                      getQuantity := some gq } }))

/-- `_extract_discounts`. -/
def extractDiscounts (text : List Char) : List ExtractedDeal :=
  DISCOUNT_PATTERNS.flatMap (fun pl =>
    (reFinditer true pl.1 text).filterMap (fun m =>
      if pl.2 = cs "save_amount" ∨ pl.2 = cs "dollar_off" then
        some { rawText := m.matched, dealType := .saveAmount,
               discountAmount := some (parseDecQ ((m.group 1).getD [])),
               position := (m.mstart, m.mstop),
               metadata := { pattern := some pl.2 } }
      else if pl.2 = cs "percent_off" then
        some { rawText := m.matched, dealType := .percentOff,
               discountPercent := some (parseDecQ ((m.group 1).getD [])),
               position := (m.mstart, m.mstop),
               metadata := { pattern := some pl.2 } }
      else none))

/-- `_extract_store_specific`. -/
def extractStoreSpecific (storeHint : List Char) (text : List Char) :
    List ExtractedDeal :=
  match storePatterns storeHint with
  | none => []
  | some pats =>
    pats.flatMap (fun pl =>
      (reFinditer true pl.1 text).map (fun m =>
        if pl.2 = cs "was_now" then
          let wasPrice := parseDecQ ((m.group 1).getD [])
          let nowPrice := parseDecQ ((m.group 2).getD [])
          { rawText := m.matched, dealType := .price, price := some nowPrice,
            originalPrice := some wasPrice,
            discountAmount := some (wasPrice - nowPrice),
            position := (m.mstart, m.mstop),
            metadata := { pattern := some pl.2, store := some storeHint } }
        else
          { rawText := m.matched,
            dealType := if containsList pl.2 (cs "prime") ∨
                containsList pl.2 (cs "club") then .memberPrice else .price,
            price := some (parseDecQ ((m.group 1).getD [])),
            position := (m.mstart, m.mstop),
            metadata := { pattern := some pl.2, store := some storeHint } }))

/-- `_clean_product_name`. -/
def cleanProductName (name : List Char) : List Char :=
  let joined := List.intercalate (cs " ") (pySplitWs name)
  let filtered := joined.filter
    (fun c => pyIsWord c ∨ pyIsSpace c ∨ c = '\'' ∨ c = '-')
  (pyTitle filtered).take 50

/-- `_associate_products`: attach the closest product-name candidate that
ends at or before the deal, within 100 characters. -/
def associateProducts (text : List Char) (deals : List ExtractedDeal) :
    List ExtractedDeal :=
  let cands := PRODUCT_PATTERNS.flatMap (fun pl =>
    (reFinditer true pl.1 text).map (fun m =>
      (pyStrip ((m.group 1).getD []), m.mstart, m.mstop)))
  deals.map (fun deal =>
    let ds := deal.position.1
    let best := cands.foldl
      (fun (st : ℕ × Option (List Char × ℕ × ℕ)) p =>
        if p.2.2 ≤ ds ∧ ds - p.2.2 < st.1 then (ds - p.2.2, some p) else st)
      (100, none)
    match best.2 with
    | some p => { deal with productName := some (cleanProductName p.1) }
    | none => deal)

/-- `_positions_overlap`. -/
def positionsOverlap (p1 p2 : ℕ × ℕ) : Bool := ¬(p1.2 < p2.1 ∨ p2.2 < p1.1)

/-- `_deal_info_score` (note: quantity does not count). -/
def dealInfoScore (d : ExtractedDeal) : ℕ :=
  (if pyTruthyS d.productName then 3 else 0) +
  (if pyTruthyQ d.price then 2 else 0) +
  (if pyTruthyS d.unit then 1 else 0) +
  (if pyTruthyQ d.discountAmount ∨ pyTruthyQ d.discountPercent then 1 else 0) +
  (if pyTruthyQ d.originalPrice then 1 else 0)

/-- Stable sort by start position (`sorted(deals, key=...)`). -/
def insertByStart (d : ExtractedDeal) : List ExtractedDeal → List ExtractedDeal
  | [] => [d]
  | e :: es =>
    if d.position.1 ≤ e.position.1 then d :: e :: es else e :: insertByStart d es

def sortByStart (l : List ExtractedDeal) : List ExtractedDeal :=
  l.foldr insertByStart []

/-- `_deduplicate_deals`: against the first overlapping survivor, keep
whichever has the higher information score (ties keep the survivor). -/
def deduplicateDeals (deals : List ExtractedDeal) : List ExtractedDeal :=
  (sortByStart deals).foldl (fun unique deal =>
    match unique.enum.find? (fun ie =>
        positionsOverlap deal.position ie.2.position) with
    | none => unique ++ [deal]
    | some ie =>
      if dealInfoScore deal > dealInfoScore ie.2 then
        unique.eraseIdx ie.1 ++ [deal]
      else unique) []

/-- `_calculate_confidence`: additive score clamped by `min(·, 1.0)`. -/
def calculateConfidence (deals : List ExtractedDeal) : List ExtractedDeal :=
  deals.map (fun d =>
    let conf : ℚ := (3 : ℚ)/10 +
      (if pyTruthyS d.productName then (2 : ℚ)/10 else 0) +
      (if pyTruthyQ d.price ∧ 0 < ((d.price).getD 0) then (15 : ℚ)/100 else 0) +
      (if d.dealType ≠ .unknown then (1 : ℚ)/10 else 0) +
      (if pyTruthyS d.unit ∨ pyTruthyN d.quantity then (1 : ℚ)/10 else 0) +
      (if d.metadata.store.isSome then (15 : ℚ)/100 else 0)
    { d with confidence := min conf 1 })

/-- `RegexDealParser.parse` for a parser built with `store_hint`; the
`ZeroDivisionError` of `_extract_multi_buy` propagates to the caller. -/
def parse (storeHint : Option (List Char)) (text : List Char) :
    Except String (List ExtractedDeal) :=
  let cleaned := cleanText text
  match extractMultiBuy cleaned with
  | .error e => .error e
  | .ok mb =>
    let deals1 := extractPrices cleaned ++ mb ++ extractBogo cleaned ++
      extractDiscounts cleaned ++ (match storeHint with
        | some h =>
          if (storePatterns (pyLower h)).isSome then
            extractStoreSpecific (pyLower h) cleaned
          else []
        | none => [])
    .ok (calculateConfidence (deduplicateDeals (associateProducts cleaned deals1)))

end RegexDealParser

instance {ε α : Type} [DecidableEq ε] [DecidableEq α] :
    DecidableEq (Except ε α)
  | .error e, .error f =>
    if h : e = f then isTrue (congrArg Except.error h)
    else isFalse (fun hc => h (by cases hc; rfl))
  | .error _, .ok _ => isFalse (fun hc => by cases hc)
  | .ok _, .error _ => isFalse (fun hc => by cases hc)
  | .ok a, .ok b =>
    if h : a = b then isTrue (congrArg Except.ok h)
    else isFalse (fun hc => h (by cases hc; rfl))

-- scratch checks (to be replaced by the claim theorems)
example : (RegexDealParser.parse none (cs "")) = .ok [] := by decide

example :
    (RegexDealParser.parse none (cs "0 for $5.00")) = .error "ZeroDivisionError" := by
  decide

/-! ## `TemplateDealParser` (`deal_parser_template.py`)

Learned and default regular expressions are carried as `RE` syntax trees
(standing for the pattern strings the source stores). -/

/-- `LayoutRegion` dataclass (fractional bounding box, role tag). -/
structure LayoutRegion where
  name : List Char
  xStart : ℚ := 0
  xEnd : ℚ := 1
  yStart : ℚ := 0
  yEnd : ℚ := 1
  contains : List Char := cs "deals"

/-- One entry of `StoreTemplate.custom_patterns`. -/
structure CustomPattern where
  id : List Char
  pattern : RE
  dealType : List Char
  learnedFrom : List Char

/-- `StoreTemplate` dataclass. -/
structure StoreTemplate where
  storeName : List Char
  layoutType : List Char := cs "grid"
  regions : List LayoutRegion := []
  pricePattern : Option RE := none
  productPattern : Option RE := none
  dealSeparator : List Char := cs "\n"
  columns : ℕ := 1
  hasHeader : Bool := true
  hasMemberPrices : Bool := false
  sampleCount : ℕ := 0
  accuracy : ℚ := 0
  lastUpdated : Option (List Char) := none
  customPatterns : List CustomPattern := []

/-- An OCR fragment (`{'x': .., 'y': .., 'text': ..}`, defaults 0/0/""). -/
structure OCRCoord where
  x : ℚ := 0
  y : ℚ := 0
  text : List Char := []

namespace TemplateDealParser

/-- `(\d+\.\d{2})` as capture group `n`. -/
def price2Grp (n : Nat) : RE :=
  .grp n (reSeq [.cls pyIsDigit 1 none, .lit (cs "."), .cls pyIsDigit 2 (some 2)])

/-- `DEFAULT_TEMPLATES`: the five shipped store templates. -/
def defaultTemplates : List (List Char × StoreTemplate) :=
  [ (cs "costco",
     { storeName := cs "costco", layoutType := cs "grid", columns := 2,
       hasHeader := true, hasMemberPrices := true,
       regions := [
        { name := cs "header", xStart := 0, xEnd := 1, yStart := 0,
          yEnd := (1 : ℚ)/10, contains := cs "header" },
        { name := cs "main_deals", xStart := 0, xEnd := 1, yStart := (1 : ℚ)/10,
          yEnd := (85 : ℚ)/100, contains := cs "deals" },
        { name := cs "footer", xStart := 0, xEnd := 1, yStart := (85 : ℚ)/100,
          yEnd := 1, contains := cs "footer" }],
       pricePattern := some (reSeq [.lit (cs "$"), price2Grp 1,
        .cls pyIsSpace 1 none, .alt (.lit (cs "after")) (.lit (cs "instant"))]),
       productPattern := some (reSeq [.lineStart true,
        .grp 1 (reSeq [.cls pyIsUpper 1 (some 1),
          .cls (fun c => pyIsUpper c ∨ pyIsSpace c) 5 (some 40)]),
        .lineEnd true]) }),
    (cs "whole_foods",
     { storeName := cs "whole_foods", layoutType := cs "mixed", columns := 3,
       hasHeader := true, hasMemberPrices := true,
       regions := [
        { name := cs "header", xStart := 0, xEnd := 1, yStart := 0,
          yEnd := (15 : ℚ)/100, contains := cs "header" },
        { name := cs "prime_deals", xStart := 0, xEnd := (1 : ℚ)/2,
          yStart := (15 : ℚ)/100, yEnd := (1 : ℚ)/2, contains := cs "deals" },
        { name := cs "regular_deals", xStart := (1 : ℚ)/2, xEnd := 1,
          yStart := (15 : ℚ)/100, yEnd := (85 : ℚ)/100, contains := cs "deals" },
        { name := cs "footer", xStart := 0, xEnd := 1, yStart := (85 : ℚ)/100,
          yEnd := 1, contains := cs "footer" }],
       pricePattern := some (reSeq [.alt (.lit (cs "sale")) (.lit (cs "prime")),
        .cls pyIsSpace 0 none, .lit (cs "$"), price2Grp 1]) }),
    (cs "safeway",
     { storeName := cs "safeway", layoutType := cs "grid", columns := 3,
       hasHeader := true, hasMemberPrices := true,
       regions := [
        { name := cs "header", xStart := 0, xEnd := 1, yStart := 0,
          yEnd := (12 : ℚ)/100, contains := cs "header" },
        { name := cs "main_grid", xStart := 0, xEnd := 1, yStart := (12 : ℚ)/100,
          yEnd := (88 : ℚ)/100, contains := cs "deals" },
        { name := cs "footer", xStart := 0, xEnd := 1, yStart := (88 : ℚ)/100,
          yEnd := 1, contains := cs "footer" }],
       pricePattern := some (reSeq [.lit (cs "club"), .cls pyIsSpace 1 none,
        .lit (cs "price"), .cls pyIsSpace 1 none, .lit (cs "$"), price2Grp 1]) }),
    (cs "walmart",
     { storeName := cs "walmart", layoutType := cs "list", columns := 1,
       hasHeader := true, hasMemberPrices := false,
       regions := [
        { name := cs "header", xStart := 0, xEnd := 1, yStart := 0,
          yEnd := (1 : ℚ)/10, contains := cs "header" },
        { name := cs "deals", xStart := 0, xEnd := 1, yStart := (1 : ℚ)/10,
          yEnd := (9 : ℚ)/10, contains := cs "deals" },
        { name := cs "footer", xStart := 0, xEnd := 1, yStart := (9 : ℚ)/10,
          yEnd := 1, contains := cs "footer" }],
       pricePattern := some (reSeq [
        .alt (.lit (cs "rollback"))
          (reSeq [.lit (cs "was"), .cls pyIsSpace 1 none, .lit (cs "$"),
            .cls pyIsDigit 1 none, .lit (cs "."), .cls pyIsDigit 2 (some 2),
            .cls pyIsSpace 1 none, .lit (cs "now")]),
        .cls pyIsSpace 0 none, .lit (cs "$"), price2Grp 1]) }),
    (cs "kroger",
     { storeName := cs "kroger", layoutType := cs "grid", columns := 4,
       hasHeader := true, hasMemberPrices := true,
       regions := [
        { name := cs "header", xStart := 0, xEnd := 1, yStart := 0,
          yEnd := (1 : ℚ)/10, contains := cs "header" },
        { name := cs "digital_coupons", xStart := 0, xEnd := (3 : ℚ)/10,
          yStart := (1 : ℚ)/10, yEnd := (1 : ℚ)/2, contains := cs "deals" },
        { name := cs "main_deals", xStart := (3 : ℚ)/10, xEnd := 1,
          yStart := (1 : ℚ)/10, yEnd := (9 : ℚ)/10, contains := cs "deals" },
        { name := cs "footer", xStart := 0, xEnd := 1, yStart := (9 : ℚ)/10,
          yEnd := 1, contains := cs "footer" }] }) ]

/-- `_get_template`: exact key lookup, then substring-fuzzy match in
insertion order. -/
def getTemplate (templates : List (List Char × StoreTemplate))
    (store : Option (List Char)) : Option StoreTemplate :=
  match store with
  | none => none
  | some st =>
    let sl := pyLower st
    match templates.lookup sl with
    | some t => some t
    | none =>
      (templates.find? (fun kv => containsList sl kv.1 || containsList kv.1 sl)).map
        (·.2)

/-- `_split_grid`: blocks of consecutive lines with non-blank content
(the `columns` argument is unused in the source too). -/
def splitGridGo : List (List Char) → List (List Char) → List (List Char)
  | [], cur =>
    if cur.isEmpty then [] else [List.intercalate (cs "\n") cur.reverse]
  | line :: rest, cur =>
    if (pyStrip line).isEmpty then
      if cur.isEmpty then splitGridGo rest []
      else List.intercalate (cs "\n") cur.reverse :: splitGridGo rest []
    else splitGridGo rest (line :: cur)

def splitGrid (text : List Char) : List (List Char) :=
  splitGridGo (pySplitOn (cs "\n") text) []

/-- `_split_mixed`: split on blank-line separators, strip, drop empties
(on stripped output this agrees with `re.split(r'\n{2,}')`). -/
def splitMixed (text : List Char) : List (List Char) :=
  ((pySplitOn (cs "\n\n") text).map pyStrip).filter (fun b => ¬b.isEmpty)

/-- `_extract_from_block`: template patterns first (product with
`re.MULTILINE`, price with `re.IGNORECASE`), then the generic price and
title-case-line fallbacks; a deal is produced only when a price is found. -/
def extractFromBlock (block : List Char) (template : StoreTemplate)
    (blockIndex : ℕ) : List ExtractedDeal :=
  if (pyStrip block).isEmpty then []
  else
    let productName0 : Option (List Char) :=
      match template.productPattern with
      | some pp => (reSearch false pp block).bind (fun m => (m.group 1).map pyStrip)
      | none => none
    let price0 : Option ℚ :=
      match template.pricePattern with
      | some pp => (reSearch true pp block).bind (fun m => (m.group 1).map parseDecQ)
      | none => none
    let price1 : Option ℚ :=
      match price0 with
      | some p => some p
      | none =>
        (reSearch false (reSeq [.lit (cs "$"), price2Grp 1]) block).bind
          (fun m => (m.group 1).map parseDecQ)
    let productName1 : Option (List Char) :=
      match productName0 with
      | some p => some p
      | none =>
        ((pySplitOn (cs "\n") (pyStrip block)).take 3).findSome? (fun line =>
          match reMatchAt false (reSeq [.lineStart false,
              .cls pyIsUpper 1 (some 1),
              .cls (fun c => pyIsAlpha c ∨ pyIsSpace c ∨ c = '\'') 2 (some 30),
              .lineEnd false]) (pyStrip line) with
          | some _ => some (pyStrip line)
          | none => none)
    match price1 with
    | some p =>
      [{ rawText := block.take 100, dealType := .price,
         productName := productName1, price := some p,
         metadata := { source := some (cs "template"),
                       store := some template.storeName,
                       blockIndex := some blockIndex } }]
    | none => []

/-- `_apply_custom_patterns`: learned patterns re-scan the full ad text;
the first numeric capture in `[0.01, 1000]` becomes the price, and only
deals with a (truthy) price are kept. -/
def applyCustomPatterns (text : List Char) (template : StoreTemplate) :
    List ExtractedDeal :=
  template.customPatterns.flatMap (fun cp =>
    (reFinditer true cp.pattern text).filterMap (fun m =>
      let dt := (DealType.ofValue? cp.dealType).getD .price
      let price := (m.caps.filterMap (fun g => parseDecQ? g.2)).find?
        (fun p => (1 : ℚ)/100 ≤ p ∧ p ≤ 1000)
      match price with
      | some p =>
        some { rawText := m.matched, dealType := dt, price := some p,
               metadata := { source := some (cs "custom_pattern"),
                             patternId := some cp.id } }
      | none => none))

/-- `_extract_with_template`: split by layout type, extract per block. -/
def extractWithTemplate (text : List Char) (template : StoreTemplate) :
    List ExtractedDeal :=
  let blocks :=
    if template.layoutType = cs "grid" then splitGrid text
    else if template.layoutType = cs "list" then
      pySplitOn template.dealSeparator text
    else splitMixed text
  blocks.enum.flatMap (fun ib => extractFromBlock ib.2 template ib.1)

/-- First-occurrence deduplication of a list of names. -/
def distinctL (l : List (List Char)) : List (List Char) :=
  l.foldl (fun acc w => if acc.elem w then acc else acc ++ [w]) []

/-- Stable insertion sort of OCR fragments by `(y, x)`. -/
def insertByYX (b : OCRCoord) : List OCRCoord → List OCRCoord
  | [] => [b]
  | e :: es =>
    if b.y < e.y ∨ (b.y = e.y ∧ b.x ≤ e.x) then b :: e :: es
    else e :: insertByYX b es

def sortByYX (l : List OCRCoord) : List OCRCoord := l.foldr insertByYX []

/-- Row grouping of `_extract_with_coordinates`: a new row starts when the
`y` gap from the previous fragment exceeds `0.05` (sentinel `last_y = -1`
suppresses the first check). -/
def groupRowsGo (lastY : ℚ) (cur : List (List Char)) :
    List OCRCoord → List (List (List Char))
  | [] => if cur.isEmpty then [] else [cur.reverse]
  | b :: rest =>
    if 0 ≤ lastY ∧ |b.y - lastY| > (1 : ℚ)/20 then
      if cur.isEmpty then groupRowsGo b.y [b.text] rest
      else cur.reverse :: groupRowsGo b.y [b.text] rest
    else groupRowsGo b.y (b.text :: cur) rest

/-- `_extract_with_coordinates`: bucket fragments into the first template
region containing them (deal regions only), order each bucket by `(y, x)`,
group into rows, and extract from each row's concatenated text. -/
def extractWithCoordinates (template : StoreTemplate)
    (coords : List OCRCoord) : List ExtractedDeal :=
  let names := distinctL (template.regions.map (·.name))
  names.flatMap (fun nm =>
    let blocks := coords.filter (fun c =>
      match template.regions.find? (fun r =>
          r.xStart ≤ c.x ∧ c.x ≤ r.xEnd ∧ r.yStart ≤ c.y ∧ c.y ≤ r.yEnd) with
      | some r => r.contains = cs "deals" && r.name = nm
      | none => false)
    if blocks.isEmpty then []
    else
      (groupRowsGo (-1) [] (sortByYX blocks)).flatMap (fun row =>
        extractFromBlock (List.intercalate (cs " ") row) template 0))

/-- `_similar_products`: equal, containment, or distinct-word overlap of
at least half the smaller name's word count. -/
def similarProducts (name1 name2 : Option (List Char)) : Bool :=
  if ¬pyTruthyS name1 ∨ ¬pyTruthyS name2 then false
  else
    let n1 := pyStrip (pyLower (name1.getD []))
    let n2 := pyStrip (pyLower (name2.getD []))
    if n1 = n2 then true
    else if containsList n2 n1 || containsList n1 n2 then true
    else
      let words1 := distinctL (pySplitWs n1)
      let words2 := distinctL (pySplitWs n2)
      let overlap := words1.countP (fun w => words2.elem w)
      (min words1.length words2.length : ℚ) * (1 : ℚ)/2 ≤ (overlap : ℚ)

/-- `_merge_deals`: start from the template pass, append each regex deal
unless some template deal has the identical price and a similar name. -/
def mergeDeals (templateDeals regexDeals : List ExtractedDeal) :
    List ExtractedDeal :=
  regexDeals.foldl (fun merged rd =>
    if templateDeals.any (fun td =>
        decide (td.price = rd.price) && similarProducts td.productName rd.productName)
    then merged else merged ++ [rd]) templateDeals

/-- `_calculate_confidence` (template parser): base `0.4`, provenance and
completeness bonuses, template-accuracy bonus, clamped by `min(·, 1.0)`. -/
def calcConfidenceT (deals : List ExtractedDeal)
    (template : Option StoreTemplate) : List ExtractedDeal :=
  deals.map (fun d =>
    let conf : ℚ := (4 : ℚ)/10 +
      (if d.metadata.source = some (cs "template") then (15 : ℚ)/100
       else if d.metadata.source = some (cs "custom_pattern") then (2 : ℚ)/10
       else 0) +
      (if pyTruthyS d.productName then (15 : ℚ)/100 else 0) +
      (if pyTruthyQ d.price ∧ (1 : ℚ)/100 ≤ (d.price.getD 0) ∧
          (d.price.getD 0) ≤ 500 then (1 : ℚ)/10 else 0) +
      (match template with
       | some t => if 0 < t.accuracy then t.accuracy * ((1 : ℚ)/10) else 0
       | none => 0)
    { d with confidence := min conf 1 })

/-- `TemplateDealParser.parse` over a given template registry (`store` and
`coordinates` optional; an empty coordinate list is falsy in Python and
falls back to text splitting). -/
def parse (templates : List (List Char × StoreTemplate)) (text : List Char)
    (store : Option (List Char)) (coords : Option (List OCRCoord)) :
    Except String (List ExtractedDeal) :=
  let template := getTemplate templates store
  let deals := match template with
    | some t =>
      (match coords with
       | some (c :: cl) => extractWithCoordinates t (c :: cl)
       | _ => extractWithTemplate text t) ++ applyCustomPatterns text t
    | none => []
  match RegexDealParser.parse none text with
  | .error e => .error e
  | .ok regexDeals => .ok (calcConfidenceT (mergeDeals deals regexDeals) template)

end TemplateDealParser

/-! ## `DealMatcher` (`deal_matcher.py`): string features and training -/

namespace DealMatcher

/-- The `matrix[i][j]` recurrence of `_levenshtein_similarity`'s dynamic
program, on suffixes, with structural fuel so it evaluates in the kernel
(fuel strictly above `|s| + |t|` never runs out). -/
def levGo : Nat → List Char → List Char → Nat
  | 0, _, _ => 0
  | _ + 1, [], t => t.length
  | _ + 1, s@(_ :: _), [] => s.length
  | fuel + 1, a :: s, b :: t =>
    min (levGo fuel s (b :: t) + 1)
      (min (levGo fuel (a :: s) t + 1)
        (levGo fuel s t + (if a = b then 0 else 1)))

/-- `matrix[len1][len2]`: the Levenshtein distance the source computes. -/
def levDistance (s t : List Char) : Nat := levGo (s.length + t.length + 1) s t

/-- `_levenshtein_similarity`: `1 - distance / max(len1, len2)`. -/
def levenshteinSimilarity (s1 s2 : List Char) : ℚ :=
  if s1.isEmpty ∨ s2.isEmpty then 0
  else 1 - (levDistance s1 s2 : ℚ) / (max s1.length s2.length : ℚ)

/-- Inner loop of the Jaro match search: first `j` in `[start, stop)` with
`s2[j]` unmatched and equal to `c`. -/
def jwFind (c : Char) (s2 : List Char) (s2m : List Bool) (start stop : Nat) :
    Option Nat :=
  (List.range' start (stop - start)).find? (fun j =>
    (s2m.getD j true) = false && s2.get? j = some c)

/-- Outer Jaro match loop: walks `s1` with index `i`, returning the match
flags of `s1`, the final match flags of `s2`, and the match count. -/
def jwMatchGo (s2 : List Char) (md : ℤ) :
    List Char → Nat → List Bool → List Bool × List Bool × Nat
  | [], _, s2m => ([], s2m, 0)
  | c :: rest, i, s2m =>
    let start := (max 0 ((i : ℤ) - md)).toNat
    let stop := (min ((i : ℤ) + md + 1) (s2m.length : ℤ)).toNat
    match jwFind c s2 s2m start stop with
    | some j =>
      let r := jwMatchGo s2 md rest (i + 1) (s2m.set j true)
      (true :: r.1, r.2.1, r.2.2 + 1)
    | none =>
      let r := jwMatchGo s2 md rest (i + 1) s2m
      (false :: r.1, r.2.1, r.2.2)

/-- Characters of `s` at matched positions, in order. -/
def selectMatched (s : List Char) (m : List Bool) : List Char :=
  ((s.zip m).filter (·.2)).map (·.1)

/-- The transposition count: the `k`-pointer walk of the source compares
the matched characters of `s1` and of `s2` position by position. -/
def jwTranspositions (sel1 sel2 : List Char) : Nat :=
  ((sel1.zip sel2).filter (fun p => p.1 ≠ p.2)).length

/-- Common-prefix loop, capped at 4 characters. -/
def commonPrefixGo : Nat → List Char → List Char → Nat
  | 0, _, _ => 0
  | _ + 1, [], _ => 0
  | _ + 1, _ :: _, [] => 0
  | n + 1, a :: s, b :: t => if a = b then commonPrefixGo n s t + 1 else 0

def commonPrefixLen (s1 s2 : List Char) : Nat := commonPrefixGo 4 s1 s2

/-- `_jaro_winkler_similarity`. -/
def jaroWinklerSimilarity (s1 s2 : List Char) : ℚ :=
  if s1.isEmpty ∨ s2.isEmpty then 0
  else if s1 = s2 then 1
  else
    let md : ℤ := ((max s1.length s2.length / 2 : ℕ) : ℤ) - 1
    let r := jwMatchGo s2 md s1 0 (List.replicate s2.length false)
    let mtc := r.2.2
    if mtc = 0 then 0
    else
      let t2 : ℚ :=
        (jwTranspositions (selectMatched s1 r.1) (selectMatched s2 r.2.1) : ℚ) / 2
      let jaro := ((mtc : ℚ) / s1.length + (mtc : ℚ) / s2.length +
        ((mtc : ℚ) - t2) / mtc) / 3
      jaro + (commonPrefixLen s1 s2 : ℚ) * ((1 : ℚ)/10) * (1 - jaro)

/-- Maximal `\w+` runs of a string (`re.findall(r'\w+', s)`). -/
def wordRunsGo : List Char → List Char → List (List Char)
  | [], acc => if acc.isEmpty then [] else [acc.reverse]
  | c :: rest, acc =>
    if pyIsWord c then wordRunsGo rest (c :: acc)
    else if acc.isEmpty then wordRunsGo rest []
    else acc.reverse :: wordRunsGo rest []

/-- `_ngram_overlap`: overlap coefficient of distinct `n`-gram sets. -/
def ngramsList (s : List Char) (n : Nat) : List (List Char) :=
  if s.length < n then []
  else (List.range (s.length - n + 1)).map (fun i => (s.drop i).take n)

def ngramOverlap (s1 s2 : List Char) (n : Nat) : ℚ :=
  if s1.isEmpty ∨ s2.isEmpty then 0
  else
    let g1 := TemplateDealParser.distinctL (ngramsList s1 n)
    let g2 := TemplateDealParser.distinctL (ngramsList s2 n)
    if g1.isEmpty ∨ g2.isEmpty then 0
    else
      let inter := g1.countP (fun g => g2.elem g)
      let small := min g1.length g2.length
      if 0 < small then (inter : ℚ) / small else 0

/-- `_word_overlap`: Jaccard overlap of distinct word sets. -/
def wordOverlap (s1 s2 : List Char) : ℚ :=
  let w1 := TemplateDealParser.distinctL (wordRunsGo (pyLower s1) [])
  let w2 := TemplateDealParser.distinctL (wordRunsGo (pyLower s2) [])
  if w1.isEmpty ∨ w2.isEmpty then 0
  else
    let inter := w1.countP (fun w => w2.elem w)
    let uni := (w1 ++ w2.filter (fun w => ¬w1.elem w)).length
    if 0 < uni then (inter : ℚ) / uni else 0

/-- Result of `DealMatcher.train`: an error report or training metrics.
The fitted classifier itself is an opaque sklearn object; the model slot
records only that a classifier trained on `n` examples is loaded. -/
inductive TrainOutcome where
  | error (reason : List Char)
  | metrics (samplesTrained samplesValidated : ℕ)

def TrainOutcome.isError : TrainOutcome → Bool
  | .error _ => true
  | .metrics _ _ => false

/-- `DealMatcher.train` control flow: guard clauses return error reports
(never raise); on success the model slot is replaced (80/20 split,
`n_val = int(n * 0.2)`). -/
def train (sklearnAvailable : Bool) (model0 : Option ℕ) (nExamples : ℕ) :
    TrainOutcome × Option ℕ :=
  if ¬sklearnAvailable then (.error (cs "sklearn not available"), model0)
  else if nExamples < 10 then (.error (cs "insufficient training data"), model0)
  else (.metrics (nExamples - nExamples / 5) (nExamples / 5), some nExamples)

/-- `_match_single_deal` strategy choice: heuristic scoring is active
unless a model is loaded and sklearn is importable
(`if self.model and SKLEARN_AVAILABLE`). -/
def usesHeuristic (model : Option ℕ) (sklearnAvailable : Bool) : Bool :=
  ¬(model.isSome ∧ sklearnAvailable)

end DealMatcher

/-! ## `AccuracyTracker` (`accuracy_tracker.py`) -/

namespace AccuracyTracker

/-- `AccuracyMetrics` counters. -/
structure AccuracyMetrics where
  totalDeals : ℕ := 0
  correctMatches : ℕ := 0
  incorrectMatches : ℕ := 0
  correctionsReceived : ℕ := 0

/-- `accuracy` property: `correct/total`, `0.0` when `total = 0`. -/
def AccuracyMetrics.accuracy (m : AccuracyMetrics) : ℚ :=
  if m.totalDeals = 0 then 0 else (m.correctMatches : ℚ) / m.totalDeals

/-- `correction_rate` property. -/
def AccuracyMetrics.correctionRate (m : AccuracyMetrics) : ℚ :=
  if m.totalDeals = 0 then 0 else (m.correctionsReceived : ℚ) / m.totalDeals

/-- Floor of a rational, computably (`Int.fdiv` is floor division). -/
def qFloor (q : ℚ) : ℤ := Int.fdiv q.num q.den

/-- The slope of `np.polyfit(x, y, 1)` for `x = 0, 1, ..., n-1`: the
ordinary-least-squares solution `(nΣxy − ΣxΣy) / (nΣx² − (Σx)²)`. -/
def olsSlope (ys : List ℚ) : ℚ :=
  let n : ℚ := ys.length
  let xs := (List.range ys.length).map (fun i => (i : ℚ))
  let sx := xs.sum
  let sy := ys.sum
  let sxy := ((xs.zip ys).map (fun p => p.1 * p.2)).sum
  let sxx := (xs.map (fun x => x * x)).sum
  (n * sxy - sx * sy) / (n * sxx - sx * sx)

/-- The fields of the `get_trend` result that `predict_target_date`
consumes: the trend classification, the volume-weighted overall accuracy,
and the day-bucketed accuracy series. -/
structure TrendInfo where
  trend : List Char
  overallAccuracy : ℚ
  dailyAccuracy : List ℚ

/-- The shape of the dict `predict_target_date` returns: which prediction
string it carries, and whether a concrete `estimated_date` is present
(only the `estimated` outcome has one). -/
inductive TargetPrediction where
  | insufficientData (msg : List Char)
  | achieved (current : ℚ)
  | notImproving (slope : ℚ)
  | longTerm (estimatedDays : ℤ) (slope : ℚ)
  | estimated (estimatedDays : ℤ) (slope : ℚ)

def TargetPrediction.name : TargetPrediction → List Char
  | .insufficientData _ => cs "insufficient_data"
  | .achieved _ => cs "achieved"
  | .notImproving _ => cs "not_improving"
  | .longTerm _ _ => cs "long_term"
  | .estimated _ _ => cs "estimated"

def TargetPrediction.hasConcreteDate : TargetPrediction → Bool
  | .estimated _ _ => true
  | _ => false

/-- `predict_target_date`, given the trend data it computed: guard clauses
in source order, OLS fit, `days_to_target = int(gap / slope)`, and the
365-day horizon cut-off. -/
def predictTargetDate (trendData : TrendInfo) (targetAccuracy : ℚ) :
    TargetPrediction :=
  if trendData.trend = cs "insufficient_data" then
    .insufficientData (cs "Need more data for prediction")
  else if targetAccuracy ≤ trendData.overallAccuracy then
    .achieved trendData.overallAccuracy
  else if trendData.dailyAccuracy.length < 3 then
    .insufficientData (cs "Need more days of data for prediction")
  else
    let slope := olsSlope trendData.dailyAccuracy
    if slope ≤ 0 then .notImproving slope
    else
      let gap := targetAccuracy - trendData.overallAccuracy
      let daysToTarget := qFloor (gap / slope)
      if 365 < daysToTarget then .longTerm daysToTarget slope
      else .estimated daysToTarget slope

end AccuracyTracker

/-! ## Association-list helpers for the Python dicts the source mutates -/

/-- Update the value at `key` (first occurrence) in place. -/
def updateAL {β : Type} (key : List Char) (f : β → β) :
    List (List Char × β) → List (List Char × β)
  | [] => []
  | kv :: rest =>
    if kv.1 = key then (kv.1, f kv.2) :: rest else kv :: updateAL key f rest

/-- `d[key] = v`: replace the first occurrence or append. -/
def insertAL {β : Type} (key : List Char) (v : β) :
    List (List Char × β) → List (List Char × β)
  | [] => [(key, v)]
  | kv :: rest =>
    if kv.1 = key then (key, v) :: rest else kv :: insertAL key v rest

/-! ## Template learning and persistence (`deal_parser_template.py`) -/

namespace TemplateDealParser

/-- Decimal digits of a natural number (fuel-driven division loop). -/
def natDigitsGo : Nat → Nat → List Char
  | 0, _ => []
  | fuel + 1, n =>
    if n < 10 then [Char.ofNat (48 + n)]
    else natDigitsGo fuel (n / 10) ++ [Char.ofNat (48 + n % 10)]

def natDigits (n : Nat) : List Char := natDigitsGo (n + 1) n

/-- Round half to even, the rounding of Python float formatting. -/
def roundHalfEven (x : ℚ) : ℤ :=
  let fl := AccuracyTracker.qFloor x
  let fr := x - fl
  if fr < (1 : ℚ)/2 then fl
  else if (1 : ℚ)/2 < fr then fl + 1
  else if fl % 2 = 0 then fl else fl + 1

/-- `f"{price:.2f}"` for the non-negative prices this code formats; exact
for prices that are a whole number of cents (the binary-float double
rounding of the source can only differ on sub-cent values). -/
def pyFormat2 (q : ℚ) : List Char :=
  let n := (roundHalfEven (q * 100)).toNat
  natDigits (n / 100) ++ cs "." ++
    (if n % 100 < 10 then cs "0" ++ natDigits (n % 100) else natDigits (n % 100))

/-- The ordered candidate pattern shapes `learn_from_correction` probes:
`\$(P)`, `(P)\s*(?:dollars?|usd)` and `price[:\s]+\$?(P)` for the escaped
price string `P`. -/
def learnPatterns (priceStr : List Char) : List RE :=
  [ reSeq [.lit (cs "$"), .grp 1 (.lit priceStr)],
    reSeq [.grp 1 (.lit priceStr), .cls pyIsSpace 0 none,
      .alt (reSeq [.lit (cs "dollar"), .opt (.lit (cs "s"))]) (.lit (cs "usd"))],
    reSeq [.lit (cs "price"), .cls (fun c => c = ':' ∨ pyIsSpace c) 1 none,
      .opt (.lit (cs "$")), .grp 1 (.lit priceStr)] ]

/-- `learn_from_correction` effect on the template registry (the trailing
`save_templates` call writes the registry out; `now` stands for the
`datetime.now().isoformat()` timestamp).  A new pattern is learned only
when the corrected price is truthy, differs from the original price, and
one of the candidate shapes matches `raw_text`. -/
def learnTemplateUpdate (originalDeal correctedDeal : ExtractedDeal)
    (rawText now : List Char) (t0 : StoreTemplate) : StoreTemplate :=
  let t1 := { t0 with sampleCount := t0.sampleCount + 1 }
  let t2 :=
    if pyTruthyQ correctedDeal.price ∧ originalDeal.price ≠ correctedDeal.price
    then
      let priceStr := pyFormat2 (correctedDeal.price.getD 0)
      match (learnPatterns priceStr).find?
          (fun p => (reSearch true p rawText).isSome) with
      | some p =>
        { t1 with customPatterns := t1.customPatterns ++
            [{ id := cs "price_" ++ natDigits t1.sampleCount, pattern := p,
               dealType := cs "price",
               learnedFrom := correctedDeal.rawText.take 50 }] }
      | none => t1
    else t1
  { t2 with lastUpdated := some now }

def learnFromCorrection (templates : List (List Char × StoreTemplate))
    (store : List Char) (originalDeal correctedDeal : ExtractedDeal)
    (rawText : List Char) (now : List Char) :
    List (List Char × StoreTemplate) :=
  let sl := pyLower store
  let ts := if (templates.lookup sl).isSome then templates
    else templates ++ [(sl, { storeName := sl })]
  updateAL sl (learnTemplateUpdate originalDeal correctedDeal rawText now) ts

/-- The on-disk image of one template: `save_templates` writes exactly
these fields (regions as their full field dicts, reconstructed by
`LayoutRegion(**r)` on load). -/
structure SavedTemplate where
  storeName : List Char
  layoutType : List Char
  columns : ℕ
  hasHeader : Bool
  hasMemberPrices : Bool
  pricePattern : Option RE
  productPattern : Option RE
  dealSeparator : List Char
  sampleCount : ℕ
  accuracy : ℚ
  lastUpdated : Option (List Char)
  customPatterns : List CustomPattern
  regions : List LayoutRegion

/-- Projection of `save_templates` for a single template. -/
def saveTemplate (t : StoreTemplate) : SavedTemplate :=
  { storeName := t.storeName, layoutType := t.layoutType,
    columns := t.columns, hasHeader := t.hasHeader,
    hasMemberPrices := t.hasMemberPrices, pricePattern := t.pricePattern,
    productPattern := t.productPattern, dealSeparator := t.dealSeparator,
    sampleCount := t.sampleCount, accuracy := t.accuracy,
    lastUpdated := t.lastUpdated, customPatterns := t.customPatterns,
    regions := t.regions }

/-- `StoreTemplate(**template_data, regions=regions)` on load. -/
def loadTemplate (s : SavedTemplate) : StoreTemplate :=
  { storeName := s.storeName, layoutType := s.layoutType,
    regions := s.regions, pricePattern := s.pricePattern,
    productPattern := s.productPattern, dealSeparator := s.dealSeparator,
    columns := s.columns, hasHeader := s.hasHeader,
    hasMemberPrices := s.hasMemberPrices, sampleCount := s.sampleCount,
    accuracy := s.accuracy, lastUpdated := s.lastUpdated,
    customPatterns := s.customPatterns }

/-- `save_templates` (when a `templates_path` is configured). -/
def saveTemplates (ts : List (List Char × StoreTemplate)) :
    List (List Char × SavedTemplate) :=
  ts.map (fun kv => (kv.1, saveTemplate kv.2))

/-- `_load_templates` into a freshly constructed parser: the registry
starts from the shipped defaults and each saved entry overwrites its key. -/
def loadTemplates (data : List (List Char × SavedTemplate)) :
    List (List Char × StoreTemplate) :=
  data.foldl (fun acc kv => insertAL kv.1 (loadTemplate kv.2) acc)
    defaultTemplates

end TemplateDealParser

/-! ## `ProgressiveLearner` (`progressive_learning.py`) -/

namespace ProgressiveLearner

/-- `PhaseTransitionConfig` with its defaults. -/
structure PhaseTransitionConfig where
  minAdsForPhase2 : ℕ := 5
  minCorrectionsForPhase2 : ℕ := 20
  minAdsForPhase3 : ℕ := 15
  minCorrectionsForPhase3 : ℕ := 50
  minAccuracyForPhase3 : ℚ := (55 : ℚ)/100
  mlRetrainThreshold : ℕ := 10

/-- `LearningPhase`. -/
inductive LearningPhase where
  | phase1Regex | phase2Template | phase3ML
  deriving DecidableEq, Repr

/-- `phase.value`. -/
def LearningPhase.value : LearningPhase → ℕ
  | .phase1Regex => 1
  | .phase2Template => 2
  | .phase3ML => 3

/-- The learner state the claims quantify over: the mutable counters of
`ProgressiveLearner` plus the two read-only inputs its guards consult
(the tracker's Phase-2 accuracy, which `record_correction` never changes,
and sklearn availability). -/
structure LearnerState where
  currentPhase : LearningPhase := .phase1Regex
  adsProcessed : List (List Char × ℕ) := []
  totalCorrections : ℕ := 0
  pendingCorrectionsForRetrain : ℕ := 0
  trainingDataCount : ℕ := 0
  phase2Accuracy : ℚ := 0
  mlModel : Option ℕ := none
  sklearnAvailable : Bool := true

/-- `sum(self.ads_processed.values())`. -/
def totalAds (st : LearnerState) : ℕ := (st.adsProcessed.map (·.2)).sum

/-- Result of `_retrain_ml_model`: skipped report or a success report
wrapping whatever `DealMatcher.train` returned. -/
inductive RetrainResult where
  | skipped (reason : List Char)
  | success (metrics : DealMatcher.TrainOutcome)

/-- `_retrain_ml_model`: skip below 10 buffered examples; otherwise call
`DealMatcher.train` and reset the pending counter (the source resets it
and reports success even when `train` returned an error dict, since
`train` reports failures instead of raising). -/
def retrainML (st : LearnerState) : RetrainResult × LearnerState :=
  if st.trainingDataCount < 10 then (.skipped (cs "insufficient_data"), st)
  else
    let tr := DealMatcher.train st.sklearnAvailable st.mlModel st.trainingDataCount
    (.success tr.1, { st with mlModel := tr.2, pendingCorrectionsForRetrain := 0 })

/-- `_check_phase_advancement`: the guarded 1→2 and 2→3 transitions
(2→3 first trains an initial classifier when the buffer is non-empty). -/
def checkPhaseAdvancement (cfg : PhaseTransitionConfig) (st : LearnerState) :
    Bool × LearnerState :=
  match st.currentPhase with
  | .phase1Regex =>
    if cfg.minAdsForPhase2 ≤ totalAds st ∨
        cfg.minCorrectionsForPhase2 ≤ st.totalCorrections then
      (true, { st with currentPhase := .phase2Template })
    else (false, st)
  | .phase2Template =>
    if (cfg.minAdsForPhase3 ≤ totalAds st ∨
        cfg.minCorrectionsForPhase3 ≤ st.totalCorrections) ∧
        cfg.minAccuracyForPhase3 ≤ st.phase2Accuracy then
      let st1 := if st.trainingDataCount ≠ 0 then (retrainML st).2 else st
      (true, { st1 with currentPhase := .phase3ML })
    else (false, st)
  | .phase3ML => (false, st)

/-- `self.ads_processed[store] = self.ads_processed.get(store, 0) + 1`. -/
def bumpStore (store : List Char) (ads : List (List Char × ℕ)) :
    List (List Char × ℕ) :=
  if (ads.lookup store).isSome then updateAL store (· + 1) ads
  else ads ++ [(store, 1)]

/-- The state effect of `process_ad`: count the ad for the store, then
re-check the phase guards.  (No `_save_state` call on this path.) -/
def processAdState (cfg : PhaseTransitionConfig) (st : LearnerState)
    (store : Option (List Char)) : LearnerState :=
  let sl := pyLower (store.getD (cs "unknown"))
  (checkPhaseAdvancement cfg { st with adsProcessed := bumpStore sl st.adsProcessed }).2

/-- The state effect of `learn_from_correction`: bump the correction and
pending counters, buffer a (negative, positive) example pair when a
verified product was supplied, retrain in Phase 3 past the threshold,
then re-check the phase guards. -/
def learnCorrectionState (cfg : PhaseTransitionConfig) (st : LearnerState)
    (hasTrainingPair : Bool) : LearnerState :=
  let st1 := { st with
    totalCorrections := st.totalCorrections + 1,
    pendingCorrectionsForRetrain := st.pendingCorrectionsForRetrain + 1,
    trainingDataCount := st.trainingDataCount + (if hasTrainingPair then 2 else 0) }
  let st2 :=
    if st1.currentPhase = .phase3ML ∧
        cfg.mlRetrainThreshold ≤ st1.pendingCorrectionsForRetrain then
      (retrainML st1).2
    else st1
  (checkPhaseAdvancement cfg st2).2

/-- The two mutating public calls of the claims. -/
inductive LearnerOp where
  | processAd (store : Option (List Char))
  | learnCorrection (hasTrainingPair : Bool)

def stepOp (cfg : PhaseTransitionConfig) (st : LearnerState) :
    LearnerOp → LearnerState
  | .processAd store => processAdState cfg st store
  | .learnCorrection hasPair => learnCorrectionState cfg st hasPair

def runOps (cfg : PhaseTransitionConfig) (st : LearnerState)
    (ops : List LearnerOp) : LearnerState :=
  ops.foldl (stepOp cfg) st

/-- What `_save_state` writes to `learner_state.json`. -/
structure SavedLearnerState where
  currentPhase : ℕ
  adsProcessed : List (List Char × ℕ)
  totalCorrections : ℕ
  pendingCorrectionsForRetrain : ℕ
  trainingDataCount : ℕ
  deriving DecidableEq, Repr

/-- `_save_state` projection of the in-memory state. -/
def saveStateProj (st : LearnerState) : SavedLearnerState :=
  { currentPhase := st.currentPhase.value,
    adsProcessed := st.adsProcessed,
    totalCorrections := st.totalCorrections,
    pendingCorrectionsForRetrain := st.pendingCorrectionsForRetrain,
    trainingDataCount := st.trainingDataCount }

/-- In-memory state together with the `learner_state.json` contents. -/
structure LearnerWorld where
  mem : LearnerState
  disk : SavedLearnerState

/-- `process_ad` on the world: mutates memory only — the source never
calls `_save_state` on this path. -/
def processAdW (cfg : PhaseTransitionConfig) (w : LearnerWorld)
    (store : Option (List Char)) : LearnerWorld :=
  { mem := processAdState cfg w.mem store, disk := w.disk }

/-- `learn_from_correction` on the world: mutates memory, then its final
`self._save_state()` writes the projection to disk. -/
def learnCorrectionW (cfg : PhaseTransitionConfig) (w : LearnerWorld)
    (hasTrainingPair : Bool) : LearnerWorld :=
  let m := learnCorrectionState cfg w.mem hasTrainingPair
  { mem := m, disk := saveStateProj m }

/-- `_deals_similar`: prices within `0.01`, or one raw text contained in
the other. -/
def dealsSimilar (d1 d2 : ExtractedDeal) : Bool :=
  (pyTruthyQ d1.price && pyTruthyQ d2.price &&
    |d1.price.getD 0 - d2.price.getD 0| < (1 : ℚ)/100) ||
  (¬d1.rawText.isEmpty && ¬d2.rawText.isEmpty &&
    (containsList d2.rawText d1.rawText || containsList d1.rawText d2.rawText))

/-- `_merge_results`: template results first; a regex deal is dropped
exactly when it is `_deals_similar` to some template deal. -/
def mergeResults (templateDeals regexDeals : List ExtractedDeal) :
    List ExtractedDeal :=
  regexDeals.foldl (fun merged rd =>
    if templateDeals.any (fun td => dealsSimilar rd td) then merged
    else merged ++ [rd]) templateDeals

end ProgressiveLearner

/-! # Claim theorems -/

/-- C1: the spec says `RegexDealParser.parse` returns a deal list for
every input and never raises, with an empty list as the worst case.  The
code does return `[]` on empty input, but `_extract_multi_buy` divides
the captured total by the captured quantity, so the input `"0 for $5.00"`
raises `ZeroDivisionError` — the spec states the intent and the missing
zero-quantity guard is the slip. -/
theorem C1_parse_zero_quantity_raises :
    RegexDealParser.parse none (cs "0 for $5.00") = .error "ZeroDivisionError" ∧
    RegexDealParser.parse none (cs "") = .ok [] := by
  constructor <;> decide

/-- Projection of a deal to the fields the C6 claim talks about. -/
structure DealSummary where
  dealType : DealType
  quantity : Option ℕ
  price : Option ℚ
  productName : Option (List Char)
  deriving DecidableEq, Repr

/-- Field projection used to state concrete parse results. -/
def ExtractedDeal.summary (d : ExtractedDeal) : DealSummary :=
  { dealType := d.dealType, quantity := d.quantity, price := d.price,
    productName := d.productName }

/-- C6: the spec expects `"3 for $6.00"` to parse to one MultiBuy deal
with quantity 3 and unit price 2.00.  The code instead returns a single
Price deal with price 6.00: the product patterns are compiled with
`re.IGNORECASE`, so the word "for" becomes a product-name candidate
attached to the bare `$6.00` price deal, whose information score (5) then
beats the MultiBuy deal (2) in overlap deduplication — contradicting the
parser's own docstring, which lists "3 for $10"-style multi-buys as a
handled format. -/
theorem C6_three_for_six_yields_price_deal :
    (RegexDealParser.parse none (cs "3 for $6.00")).map
      (fun ds => ds.map ExtractedDeal.summary) =
    .ok [{ dealType := .price, quantity := none, price := some 6,
           productName := some (cs "For") }] := by
  decide

/-- C9: classifier training reports failure instead of raising when given
fewer than 10 labeled examples or when sklearn is unavailable:
`DealMatcher.train` returns an error record and leaves the model slot (and
hence the heuristic-scoring strategy) unchanged, and
`ProgressiveLearner._retrain_ml_model` returns a skipped status with the
state unchanged when the buffer holds fewer than 10 examples. -/
theorem C9_training_failure_is_reported_not_raised :
    (∀ (sklearnAvailable : Bool) (model0 : Option ℕ) (n : ℕ),
      n < 10 ∨ sklearnAvailable = false →
      (DealMatcher.train sklearnAvailable model0 n).1.isError = true ∧
      (DealMatcher.train sklearnAvailable model0 n).2 = model0 ∧
      (DealMatcher.usesHeuristic model0 sklearnAvailable = true →
        DealMatcher.usesHeuristic (DealMatcher.train sklearnAvailable model0 n).2
          sklearnAvailable = true)) ∧
    (∀ st : ProgressiveLearner.LearnerState, st.trainingDataCount < 10 →
      ProgressiveLearner.retrainML st =
        (.skipped (cs "insufficient_data"), st)) := by
  constructor
  · intro sk m0 n h
    rcases h with h | h
    · cases sk
      · exact ⟨rfl, rfl, fun h' => h'⟩
      · have ht : DealMatcher.train true m0 n =
            (.error (cs "insufficient training data"), m0) := by
          simp [DealMatcher.train, h]
        rw [ht]
        exact ⟨rfl, rfl, fun h' => h'⟩
    · subst h
      exact ⟨rfl, rfl, fun h' => h'⟩
  · intro st h
    simp [ProgressiveLearner.retrainML, h]

/-- C9 witness: a concrete failing training call (3 examples, sklearn
importable, no model yet) and a concrete skipped retrain. -/
theorem C9_training_failure_witness :
    ((DealMatcher.train true none 3).1.isError = true ∧
      (DealMatcher.train true none 3).2 = none ∧
      (DealMatcher.usesHeuristic none true = true →
        DealMatcher.usesHeuristic (DealMatcher.train true none 3).2 true = true)) ∧
    ProgressiveLearner.retrainML { trainingDataCount := 0 } =
      (.skipped (cs "insufficient_data"), { trainingDataCount := 0 }) :=
  ⟨C9_training_failure_is_reported_not_raised.1 true none 3 (Or.inl (by decide)),
   C9_training_failure_is_reported_not_raised.2 { trainingDataCount := 0 } (by decide)⟩

/-- C8: with enough daily data for a fit (≥ 3 day buckets, trend computed)
and current accuracy below the target, `predict_target_date` returns the
`"not_improving"` outcome whenever the least-squares slope of daily
accuracy is non-positive, and the `"long_term"` outcome — carrying no
concrete estimated date — whenever `int(gap / slope)` exceeds 365 days. -/
theorem C8_predict_target_date_outcomes
    (td : AccuracyTracker.TrendInfo) (target : ℚ)
    (htrend : td.trend ≠ cs "insufficient_data")
    (hbelow : td.overallAccuracy < target)
    (hdays : 3 ≤ td.dailyAccuracy.length) :
    (AccuracyTracker.olsSlope td.dailyAccuracy ≤ 0 →
      AccuracyTracker.predictTargetDate td target =
        .notImproving (AccuracyTracker.olsSlope td.dailyAccuracy)) ∧
    (0 < AccuracyTracker.olsSlope td.dailyAccuracy →
      365 < AccuracyTracker.qFloor ((target - td.overallAccuracy) /
        AccuracyTracker.olsSlope td.dailyAccuracy) →
      AccuracyTracker.predictTargetDate td target =
        .longTerm (AccuracyTracker.qFloor ((target - td.overallAccuracy) /
          AccuracyTracker.olsSlope td.dailyAccuracy))
          (AccuracyTracker.olsSlope td.dailyAccuracy) ∧
      (AccuracyTracker.predictTargetDate td target).hasConcreteDate = false) := by
  have hnotle : ¬target ≤ td.overallAccuracy := not_le.mpr hbelow
  have hnotlt : ¬td.dailyAccuracy.length < 3 := Nat.not_lt.mpr hdays
  constructor
  · intro hslope
    simp [AccuracyTracker.predictTargetDate, htrend, hnotle, hnotlt, hslope]
  · intro hslope hfar
    have hns : ¬AccuracyTracker.olsSlope td.dailyAccuracy ≤ 0 := not_le.mpr hslope
    refine ⟨?_, ?_⟩ <;>
      simp [AccuracyTracker.predictTargetDate, htrend, hnotle, hnotlt, hns, hfar,
        AccuracyTracker.TargetPrediction.hasConcreteDate]

/-- Concrete declining 3-day trend (slope `-1/10`). -/
def c8TrendDown : AccuracyTracker.TrendInfo :=
  { trend := cs "declining", overallAccuracy := (1 : ℚ)/2,
    dailyAccuracy := [(3 : ℚ)/5, (1 : ℚ)/2, (2 : ℚ)/5] }

/-- Concrete slowly improving 3-day trend (slope `1/1000`). -/
def c8TrendSlow : AccuracyTracker.TrendInfo :=
  { trend := cs "improving", overallAccuracy := (3 : ℚ)/1000,
    dailyAccuracy := [(1 : ℚ)/1000, (2 : ℚ)/1000, (3 : ℚ)/1000] }

/-- C8 witness: the declining trend yields `"not_improving"`, and the
slowly improving trend (847 projected days) yields `"long_term"` with no
concrete date. -/
theorem C8_predict_target_date_witness :
    AccuracyTracker.predictTargetDate c8TrendDown ((85 : ℚ)/100) =
      .notImproving (AccuracyTracker.olsSlope c8TrendDown.dailyAccuracy) ∧
    (AccuracyTracker.predictTargetDate c8TrendSlow ((85 : ℚ)/100) =
      .longTerm (AccuracyTracker.qFloor (((85 : ℚ)/100 - c8TrendSlow.overallAccuracy) /
        AccuracyTracker.olsSlope c8TrendSlow.dailyAccuracy))
        (AccuracyTracker.olsSlope c8TrendSlow.dailyAccuracy) ∧
      (AccuracyTracker.predictTargetDate c8TrendSlow ((85 : ℚ)/100)).hasConcreteDate
        = false) :=
  ⟨(C8_predict_target_date_outcomes c8TrendDown ((85 : ℚ)/100) (by decide)
      (by decide) (by decide)).1 (by decide),
   (C8_predict_target_date_outcomes c8TrendSlow ((85 : ℚ)/100) (by decide)
      (by decide) (by decide)).2 (by decide) (by decide)⟩

/-- Phase values only move up in `_check_phase_advancement`. -/
theorem checkPhaseAdvancement_mono (cfg : ProgressiveLearner.PhaseTransitionConfig)
    (st : ProgressiveLearner.LearnerState) :
    st.currentPhase.value ≤
      ((ProgressiveLearner.checkPhaseAdvancement cfg st).2).currentPhase.value := by
  unfold ProgressiveLearner.checkPhaseAdvancement
  cases h : st.currentPhase <;> simp [h] <;> split_ifs <;>
    simp [ProgressiveLearner.LearningPhase.value, h]

/-- `retrainML` never touches the phase. -/
theorem retrainML_phase (st : ProgressiveLearner.LearnerState) :
    ((ProgressiveLearner.retrainML st).2).currentPhase = st.currentPhase := by
  unfold ProgressiveLearner.retrainML
  split_ifs <;> rfl

/-- One public mutating call never decreases the phase. -/
theorem stepOp_phase_mono (cfg : ProgressiveLearner.PhaseTransitionConfig)
    (st : ProgressiveLearner.LearnerState) (op : ProgressiveLearner.LearnerOp) :
    st.currentPhase.value ≤
      ((ProgressiveLearner.stepOp cfg st op).currentPhase).value := by
  have key : ∀ s2 : ProgressiveLearner.LearnerState,
      s2.currentPhase = st.currentPhase →
      st.currentPhase.value ≤
        ((ProgressiveLearner.checkPhaseAdvancement cfg s2).2).currentPhase.value := by
    intro s2 hs2
    have h2 := checkPhaseAdvancement_mono cfg s2
    rwa [hs2] at h2
  cases op with
  | processAd store =>
    unfold ProgressiveLearner.stepOp ProgressiveLearner.processAdState
    exact key _ rfl
  | learnCorrection hasPair =>
    unfold ProgressiveLearner.stepOp ProgressiveLearner.learnCorrectionState
    dsimp only
    refine key _ ?_
    split
    · rw [retrainML_phase]
    · rfl

/-- C3: under the two public mutating calls (no `force_phase`) the phase
is monotone across any call sequence, and with the default configuration
the Phase 1→2 guard rejects a state with 4 ads and 19 corrections but
fires as soon as the totals reach 5 ads or 20 corrections. -/
theorem C3_phase_monotone_and_boundary :
    (∀ (cfg : ProgressiveLearner.PhaseTransitionConfig)
        (st : ProgressiveLearner.LearnerState)
        (ops : List ProgressiveLearner.LearnerOp),
      st.currentPhase.value ≤
        ((ProgressiveLearner.runOps cfg st ops).currentPhase).value) ∧
    (∀ st : ProgressiveLearner.LearnerState,
      st.currentPhase = .phase1Regex → ProgressiveLearner.totalAds st = 4 →
      st.totalCorrections = 19 →
      ProgressiveLearner.checkPhaseAdvancement {} st = (false, st)) ∧
    (∀ st : ProgressiveLearner.LearnerState,
      st.currentPhase = .phase1Regex →
      (ProgressiveLearner.totalAds st = 5 ∨ st.totalCorrections = 20) →
      (ProgressiveLearner.checkPhaseAdvancement {} st).1 = true ∧
      ((ProgressiveLearner.checkPhaseAdvancement {} st).2).currentPhase =
        .phase2Template) := by
  refine ⟨?_, ?_, ?_⟩
  · intro cfg st ops
    induction ops generalizing st with
    | nil => exact le_refl _
    | cons op ops ih =>
      exact le_trans (stepOp_phase_mono cfg st op) (ih _)
  · intro st h1 h2 h3
    unfold ProgressiveLearner.checkPhaseAdvancement
    rw [h1]
    simp [h2, h3]
  · intro st h1 h2
    unfold ProgressiveLearner.checkPhaseAdvancement
    rw [h1]
    rcases h2 with h2 | h2 <;> simp [h2]

/-- Concrete boundary states for the C3 witness. -/
def c3StateBelow : ProgressiveLearner.LearnerState :=
  { currentPhase := .phase1Regex, adsProcessed := [(cs "safeway", 4)],
    totalCorrections := 19 }

def c3StateAtAds : ProgressiveLearner.LearnerState :=
  { currentPhase := .phase1Regex, adsProcessed := [(cs "safeway", 5)],
    totalCorrections := 19 }

def c3StateAtCorr : ProgressiveLearner.LearnerState :=
  { currentPhase := .phase1Regex, adsProcessed := [(cs "safeway", 4)],
    totalCorrections := 20 }

/-- C3 witness: monotonicity over a concrete two-call run and both sides
of the default-configuration boundary at concrete states. -/
theorem C3_phase_monotone_and_boundary_witness :
    (c3StateBelow.currentPhase.value ≤
      ((ProgressiveLearner.runOps {} c3StateBelow
        [.processAd (some (cs "safeway")), .learnCorrection false]).currentPhase).value) ∧
    ProgressiveLearner.checkPhaseAdvancement {} c3StateBelow = (false, c3StateBelow) ∧
    ((ProgressiveLearner.checkPhaseAdvancement {} c3StateAtAds).1 = true ∧
      ((ProgressiveLearner.checkPhaseAdvancement {} c3StateAtAds).2).currentPhase =
        .phase2Template) ∧
    ((ProgressiveLearner.checkPhaseAdvancement {} c3StateAtCorr).1 = true ∧
      ((ProgressiveLearner.checkPhaseAdvancement {} c3StateAtCorr).2).currentPhase =
        .phase2Template) :=
  ⟨C3_phase_monotone_and_boundary.1 {} c3StateBelow _,
   C3_phase_monotone_and_boundary.2.1 c3StateBelow (by decide) (by decide) (by decide),
   C3_phase_monotone_and_boundary.2.2 c3StateAtAds (by decide) (Or.inl (by decide)),
   C3_phase_monotone_and_boundary.2.2 c3StateAtCorr (by decide) (Or.inr (by decide))⟩

namespace ProgressiveLearner

/-- World-level step: which of the two mutating calls ran. -/
def stepOpW (cfg : PhaseTransitionConfig) (w : LearnerWorld) :
    LearnerOp → LearnerWorld
  | .processAd store => processAdW cfg w store
  | .learnCorrection hasPair => learnCorrectionW cfg w hasPair

def runOpsW (cfg : PhaseTransitionConfig) (w : LearnerWorld)
    (ops : List LearnerOp) : LearnerWorld :=
  ops.foldl (stepOpW cfg) w

end ProgressiveLearner

/-- A freshly constructed learner whose empty state is on disk. -/
def c4FreshWorld : ProgressiveLearner.LearnerWorld :=
  { mem := {}, disk := ProgressiveLearner.saveStateProj {} }

/-- C4 counterexample: the claim says the full `LearnerState` is persisted
after every mutating call, `process_ad` included.  But `process_ad` never
calls `_save_state`: after one `process_ad` on a fresh learner the
in-memory state counts one ad while the on-disk state still counts zero,
so disk and memory disagree when the call returns. -/
theorem C4_counterexample_process_ad_not_persisted :
    (ProgressiveLearner.processAdW {} c4FreshWorld (some (cs "safeway"))).mem.adsProcessed
      = [(cs "safeway", 1)] ∧
    (ProgressiveLearner.processAdW {} c4FreshWorld (some (cs "safeway"))).disk.adsProcessed
      = [] ∧
    (ProgressiveLearner.processAdW {} c4FreshWorld (some (cs "safeway"))).disk ≠
      ProgressiveLearner.saveStateProj
        (ProgressiveLearner.processAdW {} c4FreshWorld (some (cs "safeway"))).mem := by
  refine ⟨by decide, by decide, by decide⟩

/-- C4 as amended: `learn_from_correction` does persist — after any call
sequence ending in `learn_from_correction`, the on-disk state is exactly
the projection of the in-memory state — while `process_ad` leaves the disk
untouched, so the disk can lag until the next correction. -/
theorem C4_amended_persistence_on_corrections :
    (∀ (cfg : ProgressiveLearner.PhaseTransitionConfig)
        (w : ProgressiveLearner.LearnerWorld)
        (ops : List ProgressiveLearner.LearnerOp) (hasPair : Bool),
      (ProgressiveLearner.runOpsW cfg w
          (ops ++ [.learnCorrection hasPair])).disk =
        ProgressiveLearner.saveStateProj
          (ProgressiveLearner.runOpsW cfg w
            (ops ++ [.learnCorrection hasPair])).mem) ∧
    (∀ (cfg : ProgressiveLearner.PhaseTransitionConfig)
        (w : ProgressiveLearner.LearnerWorld) (store : Option (List Char)),
      (ProgressiveLearner.processAdW cfg w store).disk = w.disk) := by
  constructor
  · intro cfg w ops hasPair
    rw [ProgressiveLearner.runOpsW, List.foldl_append]
    rfl
  · intro cfg w store
    rfl

/-- Every deal leaving the regex parser's final confidence pass has
confidence in `[0, 1]`. -/
theorem regex_calculateConfidence_bounds (ds : List ExtractedDeal)
    (d : ExtractedDeal) (hd : d ∈ RegexDealParser.calculateConfidence ds) :
    0 ≤ d.confidence ∧ d.confidence ≤ 1 := by
  obtain ⟨d0, _, rfl⟩ := List.mem_map.mp hd
  dsimp only
  refine ⟨le_min ?_ (by norm_num), min_le_right _ _⟩
  split_ifs <;> norm_num

/-- The template-accuracy bonus is never negative (it is only added when
the stored accuracy is positive). -/
theorem accuracy_bonus_nonneg (template : Option StoreTemplate) :
    0 ≤ (match template with
      | some t => if 0 < t.accuracy then t.accuracy * ((1 : ℚ)/10) else 0
      | none => 0) := by
  match template with
  | none => exact le_refl 0
  | some t =>
    dsimp only
    split_ifs with h
    · exact mul_nonneg (le_of_lt h) (by norm_num)
    · exact le_refl 0

/-- Every deal leaving the template parser's final confidence pass has
confidence in `[0, 1]`. -/
theorem template_calcConfidenceT_bounds (ds : List ExtractedDeal)
    (template : Option StoreTemplate) (d : ExtractedDeal)
    (hd : d ∈ TemplateDealParser.calcConfidenceT ds template) :
    0 ≤ d.confidence ∧ d.confidence ≤ 1 := by
  obtain ⟨d0, _, rfl⟩ := List.mem_map.mp hd
  dsimp only
  refine ⟨le_min ?_ (by norm_num), min_le_right _ _⟩
  have hacc := accuracy_bonus_nonneg template
  split_ifs <;> linarith

/-- C2: for every input, every deal returned by `RegexDealParser.parse`
and by `TemplateDealParser.parse` has confidence in the closed interval
`[0, 1]`: both pipelines end by assigning every returned deal a clamped
additive confidence. -/
theorem C2_confidence_in_unit_interval :
    (∀ (storeHint : Option (List Char)) (text : List Char)
        (deals : List ExtractedDeal),
      RegexDealParser.parse storeHint text = .ok deals →
      ∀ d ∈ deals, 0 ≤ d.confidence ∧ d.confidence ≤ 1) ∧
    (∀ (templates : List (List Char × StoreTemplate)) (text : List Char)
        (store : Option (List Char)) (coords : Option (List OCRCoord))
        (deals : List ExtractedDeal),
      TemplateDealParser.parse templates text store coords = .ok deals →
      ∀ d ∈ deals, 0 ≤ d.confidence ∧ d.confidence ≤ 1) := by
  constructor
  · intro sh text deals h d hd
    unfold RegexDealParser.parse at h
    cases hmb : RegexDealParser.extractMultiBuy (RegexDealParser.cleanText text) with
    | error e =>
      simp only [hmb] at h
      exact Except.noConfusion h
    | ok mb =>
      simp only [hmb] at h
      injection h with h'
      subst h'
      exact regex_calculateConfidence_bounds _ d hd
  · intro templates text store coords deals h d hd
    unfold TemplateDealParser.parse at h
    cases hrp : RegexDealParser.parse none text with
    | error e =>
      simp only [hrp] at h
      exact Except.noConfusion h
    | ok rds =>
      simp only [hrp] at h
      injection h with h'
      subst h'
      exact template_calcConfidenceT_bounds _ _ d hd

/-- The single deal the regex parser extracts from `"$5.99"`. -/
def c2RegexDeal : ExtractedDeal :=
  { rawText := cs "$5.99", dealType := .price, price := some ((599 : ℚ)/100),
    confidence := (11 : ℚ)/20, position := (0, 5),
    metadata := { pattern := some (cs "price") } }

/-- The same deal after the template parser's confidence pass (no store,
no coordinates: the template path is skipped and the regex deal merges). -/
def c2TemplateDeal : ExtractedDeal :=
  { rawText := cs "$5.99", dealType := .price, price := some ((599 : ℚ)/100),
    confidence := (1 : ℚ)/2, position := (0, 5),
    metadata := { pattern := some (cs "price") } }

/-- C2 witness: concrete parses of `"$5.99"` through both parsers. -/
theorem C2_confidence_in_unit_interval_witness :
    (0 ≤ c2RegexDeal.confidence ∧ c2RegexDeal.confidence ≤ 1) ∧
    (0 ≤ c2TemplateDeal.confidence ∧ c2TemplateDeal.confidence ≤ 1) :=
  ⟨C2_confidence_in_unit_interval.1 none (cs "$5.99") [c2RegexDeal]
      (by decide) c2RegexDeal (by decide),
   C2_confidence_in_unit_interval.2 TemplateDealParser.defaultTemplates
      (cs "$5.99") none none [c2TemplateDeal]
      (by decide) c2TemplateDeal (by decide)⟩

/-- The duplicate criterion exactly as the C7 claim words it (modelled
from the spec sentence, for comparison with the source): same price
within $0.01, or one raw text a substring of the other, or product-name
word overlap at least 50% of the smaller name's token count. -/
def specClaimDuplicate (d1 d2 : ExtractedDeal) : Bool :=
  (match d1.price, d2.price with
   | some p1, some p2 => |p1 - p2| ≤ (1 : ℚ)/100
   | _, _ => false) ||
  containsList d2.rawText d1.rawText || containsList d1.rawText d2.rawText ||
  (match d1.productName, d2.productName with
   | some n1, some n2 =>
     let w1 := TemplateDealParser.distinctL (pySplitWs (pyLower n1))
     let w2 := TemplateDealParser.distinctL (pySplitWs (pyLower n2))
     decide ((min w1.length w2.length : ℚ) * ((1 : ℚ)/2) ≤
       (w1.countP (fun w => w2.elem w) : ℚ))
   | _, _ => false)

/-- A template-pass deal and a regex-pass deal with identical prices but
no product names: duplicates per the claim, distinct per the code. -/
def c7TemplateDeal : ExtractedDeal :=
  { rawText := cs "A", dealType := .price, price := some 5,
    metadata := { source := some (cs "template") } }

def c7RegexDeal : ExtractedDeal :=
  { rawText := cs "B", dealType := .price, price := some 5 }

/-- A pair whose product names overlap 50% but whose prices and raw texts
differ: duplicates per the claim, distinct per the learner's merge. -/
def c7TemplateDeal2 : ExtractedDeal :=
  { rawText := cs "AA", dealType := .price, price := some 3,
    productName := some (cs "red apple"),
    metadata := { source := some (cs "template") } }

def c7RegexDeal2 : ExtractedDeal :=
  { rawText := cs "BB", dealType := .price, price := some 4,
    productName := some (cs "red pear") }

/-- C7 counterexample: on both merge paths the code keeps a regex deal
that the claim's criterion calls a duplicate.  `_merge_deals` requires
price equality AND similar product names (both conjuncts, not the claim's
disjunction), so two same-price deals without names are both kept;
`_deals_similar` never looks at product names, so a name-overlap-only
pair is also kept. -/
theorem C7_counterexample_merge_criterion :
    (specClaimDuplicate c7TemplateDeal c7RegexDeal = true ∧
      TemplateDealParser.mergeDeals [c7TemplateDeal] [c7RegexDeal] =
        [c7TemplateDeal, c7RegexDeal]) ∧
    (specClaimDuplicate c7TemplateDeal2 c7RegexDeal2 = true ∧
      ProgressiveLearner.mergeResults [c7TemplateDeal2] [c7RegexDeal2] =
        [c7TemplateDeal2, c7RegexDeal2]) := by
  refine ⟨⟨by decide, by decide⟩, ⟨by decide, by decide⟩⟩

/-- Folding the merge loop is appending the regex deals that fail the
duplicate test (the test only consults the fixed template-deal list). -/
theorem merge_foldl_is_filter (p : ExtractedDeal → Bool)
    (rds acc : List ExtractedDeal) :
    rds.foldl (fun merged rd => if p rd then merged else merged ++ [rd]) acc =
      acc ++ rds.filter (fun rd => !p rd) := by
  induction rds generalizing acc with
  | nil => simp
  | cons rd rest ih =>
    by_cases h : p rd = true
    · simp [h, ih]
    · simp only [Bool.not_eq_true] at h
      simp [h, ih]

/-- C7 as amended: in `TemplateDealParser._merge_deals` the template pass
is kept wholesale and a regex deal is dropped exactly when some template
deal has an *identical* price field and a *similar product name*; in
`ProgressiveLearner._merge_results` a regex deal is dropped exactly when
some template deal has a price within $0.01 or a raw text containing (or
contained in) its own; and "similar product name" means exactly: both
names truthy and, after lower-casing and stripping, equal, or one
containing the other, or distinct-word overlap at least half the smaller
word count. -/
theorem C7_amended_merge_criteria :
    (∀ tds rds : List ExtractedDeal,
      TemplateDealParser.mergeDeals tds rds =
        tds ++ rds.filter (fun rd => !tds.any (fun td =>
          decide (td.price = rd.price) &&
          TemplateDealParser.similarProducts td.productName rd.productName))) ∧
    (∀ tds rds : List ExtractedDeal,
      ProgressiveLearner.mergeResults tds rds =
        tds ++ rds.filter (fun rd => !tds.any (fun td =>
          ProgressiveLearner.dealsSimilar rd td))) ∧
    (∀ (n1 n2 : List Char), n1 ≠ [] → n2 ≠ [] →
      (TemplateDealParser.similarProducts (some n1) (some n2) = true ↔
        (pyStrip (pyLower n1) = pyStrip (pyLower n2) ∨
         containsList (pyStrip (pyLower n2)) (pyStrip (pyLower n1)) = true ∨
         containsList (pyStrip (pyLower n1)) (pyStrip (pyLower n2)) = true ∨
         min (TemplateDealParser.distinctL (pySplitWs (pyStrip (pyLower n1)))).length
             (TemplateDealParser.distinctL (pySplitWs (pyStrip (pyLower n2)))).length ≤
           2 * (TemplateDealParser.distinctL (pySplitWs (pyStrip (pyLower n1)))).countP
             (fun w => (TemplateDealParser.distinctL
               (pySplitWs (pyStrip (pyLower n2)))).elem w)))) := by
  refine ⟨?_, ?_, ?_⟩
  · intro tds rds
    exact merge_foldl_is_filter _ rds tds
  · intro tds rds
    exact merge_foldl_is_filter _ rds tds
  · intro n1 n2 h1 h2
    unfold TemplateDealParser.similarProducts
    have t1 : pyTruthyS (some n1) = true := by
      simp [pyTruthyS, List.isEmpty_iff, h1]
    have t2 : pyTruthyS (some n2) = true := by
      simp [pyTruthyS, List.isEmpty_iff, h2]
    simp only [t1, t2, Option.getD_some]
    norm_num
    have key : ∀ a b ov : ℕ, (((a : ℚ) ⊓ (b : ℚ))/2 ≤ (ov : ℚ)) ↔
        (a ≤ 2 * ov ∨ b ≤ 2 * ov) := by
      intro a b ov
      have cast2 : ((2 * ov : ℕ) : ℚ) = (ov : ℚ) * 2 := by push_cast; ring
      rw [← Nat.cast_min, div_le_iff₀ (by norm_num : (0 : ℚ) < 2), ← cast2,
        Nat.cast_le, min_le_iff]
    rw [key]
    tauto

/-- C7 amended witness: the 50%-overlap arm instantiated at concrete
names ("red apple" / "red pear" share half their words). -/
theorem C7_amended_merge_criteria_witness :
    TemplateDealParser.similarProducts (some (cs "red apple"))
      (some (cs "red pear")) = true :=
  (C7_amended_merge_criteria.2.2 (cs "red apple") (cs "red pear")
    (by decide) (by decide)).mpr (by decide)

/-! ## Association-list lemmas for the C5 save/reload round trip -/

theorem lookup_insertAL_self {β : Type} (k : List Char) (v : β)
    (l : List (List Char × β)) : (insertAL k v l).lookup k = some v := by
  induction l with
  | nil => simp [insertAL, List.lookup]
  | cons kv rest ih =>
    by_cases h : kv.1 = k
    · simp [insertAL, h, List.lookup]
    · have hb : (k == kv.1) = false := by
        simp only [beq_eq_false_iff_ne, ne_eq]
        exact fun he => h he.symm
      simp [insertAL, h, List.lookup, hb, ih]

theorem lookup_insertAL_ne {β : Type} (k k' : List Char) (v : β)
    (l : List (List Char × β)) (hne : k' ≠ k) :
    (insertAL k v l).lookup k' = l.lookup k' := by
  have hb : (k' == k) = false := by
    simp only [beq_eq_false_iff_ne, ne_eq]
    exact hne
  induction l with
  | nil => simp [insertAL, List.lookup, hb]
  | cons kv rest ih =>
    by_cases h : kv.1 = k
    · subst h
      simp [insertAL, List.lookup, hb]
    · simp [insertAL, h, List.lookup, ih]

theorem lookup_none_not_mem {β : Type} (k : List Char)
    (l : List (List Char × β)) (h : l.lookup k = none) :
    k ∉ l.map Prod.fst := by
  induction l with
  | nil => simp
  | cons kv rest ih =>
    by_cases he : k = kv.1
    · exfalso
      rw [List.lookup, he] at h
      simp at h
    · have hb : (k == kv.1) = false := by
        simp only [beq_eq_false_iff_ne, ne_eq]
        exact he
      rw [List.lookup, hb] at h
      simp only [List.map, List.mem_cons]
      exact fun hc => hc.elim (fun h1 => he h1) (ih h)

theorem lookup_append_single {β : Type} (k : List Char) (v : β)
    (l : List (List Char × β)) (h : l.lookup k = none) :
    (l ++ [(k, v)]).lookup k = some v := by
  induction l with
  | nil => simp [List.lookup]
  | cons kv rest ih =>
    by_cases he : k = kv.1
    · exfalso
      rw [List.lookup, he] at h
      simp at h
    · have hb : (k == kv.1) = false := by
        simp only [beq_eq_false_iff_ne, ne_eq]
        exact he
      rw [List.lookup, hb] at h
      rw [List.cons_append, List.lookup, hb]
      exact ih h

theorem lookup_updateAL {β : Type} (k : List Char) (f : β → β)
    (l : List (List Char × β)) :
    (updateAL k f l).lookup k = (l.lookup k).map f := by
  induction l with
  | nil => simp [updateAL, List.lookup]
  | cons kv rest ih =>
    by_cases h : kv.1 = k
    · subst h
      simp [updateAL, List.lookup]
    · have hb : (k == kv.1) = false := by
        simp only [beq_eq_false_iff_ne, ne_eq]
        exact fun he => h he.symm
      simp [updateAL, h, List.lookup, hb, ih]

theorem keys_updateAL {β : Type} (k : List Char) (f : β → β)
    (l : List (List Char × β)) :
    (updateAL k f l).map Prod.fst = l.map Prod.fst := by
  induction l with
  | nil => rfl
  | cons kv rest ih =>
    by_cases h : kv.1 = k <;> simp [updateAL, h, ih]

/-- Folding saved entries into any seed: keys not saved keep their seed
binding. -/
theorem foldl_insertAL_not_mem {β : Type} (k : List Char)
    (data : List (List Char × β)) (acc : List (List Char × β))
    (h : k ∉ data.map Prod.fst) :
    (data.foldl (fun a kv => insertAL kv.1 kv.2 a) acc).lookup k =
      acc.lookup k := by
  induction data generalizing acc with
  | nil => rfl
  | cons kv rest ih =>
    simp only [List.map, List.mem_cons, not_or] at h
    simp only [List.foldl]
    rw [ih _ h.2, lookup_insertAL_ne _ _ _ _ h.1]

/-- Folding saved entries with distinct keys: every saved key ends bound
to its saved value. -/
theorem foldl_insertAL_mem {β : Type} (k : List Char) (v : β)
    (data : List (List Char × β)) (acc : List (List Char × β))
    (hnd : (data.map Prod.fst).Nodup) (h : data.lookup k = some v) :
    (data.foldl (fun a kv => insertAL kv.1 kv.2 a) acc).lookup k = some v := by
  induction data generalizing acc with
  | nil => simp [List.lookup] at h
  | cons kv rest ih =>
    simp only [List.map, List.nodup_cons] at hnd
    simp only [List.foldl]
    by_cases he : k = kv.1
    · rw [List.lookup, he] at h
      simp only [beq_self_eq_true, if_pos] at h
      cases h
      rw [foldl_insertAL_not_mem _ _ _ (he ▸ hnd.1)]
      rw [he, lookup_insertAL_self]
    · have hb : (k == kv.1) = false := by
        simp only [beq_eq_false_iff_ne, ne_eq]
        exact he
      rw [List.lookup, hb] at h
      exact ih _ hnd.2 h

/-- Keys are unchanged by re-tagging values. -/
theorem lookup_map_values {β γ : Type} (g : β → γ) (k : List Char)
    (l : List (List Char × β)) :
    (l.map (fun kv => (kv.1, g kv.2))).lookup k = (l.lookup k).map g := by
  induction l with
  | nil => simp [List.lookup]
  | cons kv rest ih =>
    by_cases he : k = kv.1
    · simp [List.lookup, he]
    · have hb : (k == kv.1) = false := by
        simp only [beq_eq_false_iff_ne, ne_eq]
        exact he
      simp [List.lookup, hb, ih]

/-- Saving and reloading the registry preserves every stored template
(the saved record carries all thirteen `StoreTemplate` fields, and
reload rebuilds the dataclass from them). -/
theorem loadTemplates_saveTemplates_lookup
    (ts : List (List Char × StoreTemplate)) (k : List Char) (t : StoreTemplate)
    (hnd : (ts.map Prod.fst).Nodup) (h : ts.lookup k = some t) :
    (TemplateDealParser.loadTemplates (TemplateDealParser.saveTemplates ts)).lookup k
      = some t := by
  unfold TemplateDealParser.loadTemplates TemplateDealParser.saveTemplates
  rw [List.foldl_map]
  have hshow : (ts.foldl (fun acc kv =>
      insertAL kv.1 (TemplateDealParser.loadTemplate
        (TemplateDealParser.saveTemplate kv.2)) acc)
      TemplateDealParser.defaultTemplates) =
    (ts.foldl (fun acc kv => insertAL kv.1 kv.2 acc)
      TemplateDealParser.defaultTemplates) := rfl
  rw [hshow]
  exact foldl_insertAL_mem k t ts _ hnd h

/-- Deals used by the C5 counterexample: a correction changing the price
from 4.99 to 5.99, whose corrected price appears bare in the raw text. -/
def c5Original : ExtractedDeal :=
  { rawText := cs "apples", dealType := .price, price := some ((499 : ℚ)/100) }

def c5Corrected : ExtractedDeal :=
  { rawText := cs "apples", dealType := .price, price := some ((599 : ℚ)/100) }

/-- C5 counterexample: the corrected price `5.99` literally appears in
`raw_text == "apples 5.99"` and differs from the original price, yet
`learn_from_correction` adds no custom pattern — the learner only probes
the shapes `$5.99`, `5.99 dollars|usd` and `price: 5.99`, none of which
match a bare price occurrence. -/
theorem C5_counterexample_bare_price_learns_nothing :
    containsList (cs "apples 5.99")
      (TemplateDealParser.pyFormat2 ((599 : ℚ)/100)) = true ∧
    ((TemplateDealParser.learnFromCorrection TemplateDealParser.defaultTemplates
        (cs "acme") c5Original c5Corrected (cs "apples 5.99")
        (cs "2025-01-01")).lookup (cs "acme")).map
      (fun t => t.customPatterns.length) = some 0 := by
  refine ⟨by decide, by decide⟩

/-- Under the amended hypotheses the per-template update appends exactly
one custom pattern. -/
theorem learnTemplateUpdate_adds_pattern (od cd : ExtractedDeal)
    (rawText now : List Char) (t0 : StoreTemplate) (p : ℚ) (ptf : RE)
    (hp : cd.price = some p) (hp0 : p ≠ 0) (hne : od.price ≠ cd.price)
    (hfind : (TemplateDealParser.learnPatterns
        (TemplateDealParser.pyFormat2 p)).find?
      (fun pt => (reSearch true pt rawText).isSome) = some ptf) :
    (TemplateDealParser.learnTemplateUpdate od cd rawText now
      t0).customPatterns.length = t0.customPatterns.length + 1 := by
  have hcond : pyTruthyQ (some p) = true ∧ od.price ≠ some p :=
    ⟨by simp [pyTruthyQ, hp0], hp ▸ hne⟩
  unfold TemplateDealParser.learnTemplateUpdate
  dsimp only
  rw [hp]
  simp only [Option.getD_some]
  rw [if_pos hcond, hfind]
  simp

/-- C5 as amended: when the corrected price is truthy, differs from the
original extracted price, and appears in `raw_text` in one of the
learner's three recognized shapes (`$P`, `P dollars`/`P usd`, or
`price: P` for the 2-decimal rendering `P` of the price), the store's
template gains exactly one new custom pattern, and saving then reloading
the registry returns the identical template for that store. -/
theorem C5_amended_custom_pattern_roundtrip
    (templates : List (List Char × StoreTemplate))
    (store : List Char) (od cd : ExtractedDeal) (rawText now : List Char)
    (p : ℚ)
    (hnd : (templates.map Prod.fst).Nodup)
    (hp : cd.price = some p) (hp0 : p ≠ 0) (hne : od.price ≠ cd.price)
    (hmatch : (TemplateDealParser.learnPatterns
        (TemplateDealParser.pyFormat2 p)).any
      (fun pt => (reSearch true pt rawText).isSome) = true) :
    ((TemplateDealParser.learnFromCorrection templates store od cd rawText
        now).lookup (pyLower store)).map (fun t => t.customPatterns.length) =
      some ((((templates.lookup (pyLower store)).map
        (fun t => t.customPatterns.length)).getD 0) + 1) ∧
    (TemplateDealParser.loadTemplates (TemplateDealParser.saveTemplates
        (TemplateDealParser.learnFromCorrection templates store od cd rawText
          now))).lookup (pyLower store) =
      (TemplateDealParser.learnFromCorrection templates store od cd rawText
        now).lookup (pyLower store) := by
  obtain ⟨pt0, hmem, hpt⟩ := List.any_eq_true.mp hmatch
  have hsome : ((TemplateDealParser.learnPatterns
      (TemplateDealParser.pyFormat2 p)).find?
      (fun pt => (reSearch true pt rawText).isSome)).isSome :=
    List.find?_isSome.mpr ⟨pt0, hmem, hpt⟩
  obtain ⟨ptf, hfind⟩ := Option.isSome_iff_exists.mp hsome
  have hlen := fun t0 => learnTemplateUpdate_adds_pattern od cd rawText now
    t0 p ptf hp hp0 hne hfind
  unfold TemplateDealParser.learnFromCorrection
  cases hl : templates.lookup (pyLower store) with
  | some t0 =>
    simp only [hl, Option.isSome_some, if_true]
    have hlook : (updateAL (pyLower store)
        (TemplateDealParser.learnTemplateUpdate od cd rawText now)
        templates).lookup (pyLower store) =
        some (TemplateDealParser.learnTemplateUpdate od cd rawText now t0) := by
      rw [lookup_updateAL, hl]
      rfl
    constructor
    · rw [hlook]
      simp [hlen t0]
    · rw [hlook]
      apply loadTemplates_saveTemplates_lookup
      · rw [keys_updateAL]
        exact hnd
      · exact hlook
  | none =>
    simp only [hl, Option.isSome_none, Bool.false_eq_true, if_false]
    have happ : (templates ++ [(pyLower store,
        ({ storeName := pyLower store } : StoreTemplate))]).lookup
        (pyLower store) = some { storeName := pyLower store } :=
      lookup_append_single _ _ _ hl
    have hlook : (updateAL (pyLower store)
        (TemplateDealParser.learnTemplateUpdate od cd rawText now)
        (templates ++ [(pyLower store,
          ({ storeName := pyLower store } : StoreTemplate))])).lookup
        (pyLower store) =
        some (TemplateDealParser.learnTemplateUpdate od cd rawText now
          { storeName := pyLower store }) := by
      rw [lookup_updateAL, happ]
      rfl
    constructor
    · rw [hlook]
      simp [hlen { storeName := pyLower store }]
    · rw [hlook]
      apply loadTemplates_saveTemplates_lookup
      · rw [keys_updateAL]
        simp only [List.map_append]
        refine List.Nodup.append hnd (by simp) ?_
        intro a ha hb
        simp only [List.map_cons, List.map_nil, List.mem_singleton] at hb
        subst hb
        exact lookup_none_not_mem _ _ hl ha
      · exact hlook

/-- C5 witness: a concrete correction (4.99 → 5.99) against the shipped
registry, with `"$5.99"` present in the raw text, learns one pattern for
store "acme" and survives a save/reload round trip. -/
theorem C5_amended_custom_pattern_roundtrip_witness :
    ((TemplateDealParser.learnFromCorrection TemplateDealParser.defaultTemplates
        (cs "acme") c5Original c5Corrected (cs "apples $5.99")
        (cs "2025-01-01")).lookup (pyLower (cs "acme"))).map
      (fun t => t.customPatterns.length) =
      some ((((TemplateDealParser.defaultTemplates.lookup
        (pyLower (cs "acme"))).map
          (fun t => t.customPatterns.length)).getD 0) + 1) ∧
    (TemplateDealParser.loadTemplates (TemplateDealParser.saveTemplates
        (TemplateDealParser.learnFromCorrection TemplateDealParser.defaultTemplates
          (cs "acme") c5Original c5Corrected (cs "apples $5.99")
          (cs "2025-01-01")))).lookup (pyLower (cs "acme")) =
      (TemplateDealParser.learnFromCorrection TemplateDealParser.defaultTemplates
        (cs "acme") c5Original c5Corrected (cs "apples $5.99")
        (cs "2025-01-01")).lookup (pyLower (cs "acme")) :=
  C5_amended_custom_pattern_roundtrip TemplateDealParser.defaultTemplates
    (cs "acme") c5Original c5Corrected (cs "apples $5.99") (cs "2025-01-01")
    ((599 : ℚ)/100) (by decide) (by decide) (by decide) (by decide) (by decide)

/-! ## C10: both string similarities stay inside `[0, 1]` -/

/-- With enough fuel, the edit-distance recurrence is bounded by the
longer length (cost of rewriting everything). -/
theorem levGo_le (fuel : ℕ) :
    ∀ (s t : List Char), s.length + t.length < fuel →
      DealMatcher.levGo fuel s t ≤ max s.length t.length := by
  induction fuel with
  | zero => intro s t h; omega
  | succ fuel ih =>
    intro s t h
    match s, t with
    | [], t => simp [DealMatcher.levGo]
    | a :: s, [] => simp [DealMatcher.levGo]
    | a :: s, b :: t =>
      have hst : s.length + t.length < fuel := by
        simp only [List.length_cons] at h
        omega
      have hd := ih s t hst
      have hcost : (if a = b then 0 else 1) ≤ 1 := by split_ifs <;> omega
      calc DealMatcher.levGo (fuel + 1) (a :: s) (b :: t)
          ≤ DealMatcher.levGo fuel s t + (if a = b then 0 else 1) :=
            le_trans (min_le_right _ _) (min_le_right _ _)
        _ ≤ max s.length t.length + 1 := by omega
        _ ≤ max (a :: s).length (b :: t).length := by
            simp only [List.length_cons]
            omega

/-- The Levenshtein distance of the source is at most the longer length. -/
theorem levDistance_le (s t : List Char) :
    DealMatcher.levDistance s t ≤ max s.length t.length :=
  levGo_le _ s t (by omega)

/-- A `getD`-with-default-`true` returning `false` is a real position. -/
theorem getD_false_lt_length (l : List Bool) (j : ℕ)
    (h : l.getD j true = false) : j < l.length := by
  induction l generalizing j with
  | nil => simp [List.getD] at h
  | cons b rest ih =>
    cases j with
    | zero => simp
    | succ j =>
      simp only [List.getD_cons_succ] at h
      simpa using ih j h

/-- Setting a `false` cell to `true` raises the `true` count by one. -/
theorem count_set_true (l : List Bool) (j : ℕ)
    (h : l.getD j true = false) :
    (l.set j true).count true = l.count true + 1 := by
  induction l generalizing j with
  | nil => simp [List.getD] at h
  | cons b rest ih =>
    cases j with
    | zero =>
      simp only [List.getD_cons_zero] at h
      subst h
      simp [List.count_cons]
    | succ j =>
      simp only [List.getD_cons_succ] at h
      simp [List.count_cons, ih j h]
      ring

/-- Invariant of the Jaro match loop: the `s1` flag list follows `s1`,
the `s2` flag list keeps its length, and the match counter counts the
`true` flags on both sides. -/
theorem jwMatchGo_spec (s2 : List Char) (md : ℤ) :
    ∀ (s1c : List Char) (i : ℕ) (s2m : List Bool),
      (DealMatcher.jwMatchGo s2 md s1c i s2m).1.length = s1c.length ∧
      (DealMatcher.jwMatchGo s2 md s1c i s2m).2.1.length = s2m.length ∧
      (DealMatcher.jwMatchGo s2 md s1c i s2m).1.count true =
        (DealMatcher.jwMatchGo s2 md s1c i s2m).2.2 ∧
      (DealMatcher.jwMatchGo s2 md s1c i s2m).2.1.count true =
        (DealMatcher.jwMatchGo s2 md s1c i s2m).2.2 + s2m.count true := by
  intro s1c
  induction s1c with
  | nil =>
    intro i s2m
    simp [DealMatcher.jwMatchGo]
  | cons c rest ih =>
    intro i s2m
    unfold DealMatcher.jwMatchGo
    dsimp only
    cases hf : DealMatcher.jwFind c s2 s2m
        ((max 0 ((i : ℤ) - md)).toNat)
        ((min ((i : ℤ) + md + 1) (s2m.length : ℤ)).toNat) with
    | some j =>
      have hpred := List.find?_some hf
      simp only [Bool.and_eq_true, decide_eq_true_eq] at hpred
      have hfalse : s2m.getD j true = false := hpred.1
      obtain ⟨ih1, ih2, ih3, ih4⟩ := ih (i + 1) (s2m.set j true)
      dsimp only
      refine ⟨by simp [ih1], by simp [ih2], by simp [List.count_cons, ih3], ?_⟩
      rw [ih4, count_set_true s2m j hfalse]
      ring
    | none =>
      obtain ⟨ih1, ih2, ih3, ih4⟩ := ih (i + 1) s2m
      dsimp only
      exact ⟨by simp [ih1], ih2, by simp [List.count_cons, ih3], ih4⟩

/-- The matched-character selection has one character per `true` flag. -/
theorem selectMatched_length (s : List Char) (m : List Bool)
    (h : s.length = m.length) :
    (DealMatcher.selectMatched s m).length = m.count true := by
  induction s generalizing m with
  | nil =>
    cases m with
    | nil => simp [DealMatcher.selectMatched]
    | cons b mrest => simp at h
  | cons a srest ih =>
    cases m with
    | nil => simp at h
    | cons b mrest =>
      have h' : srest.length = mrest.length := by simpa using h
      have ihr := ih mrest h'
      unfold DealMatcher.selectMatched at ihr ⊢
      cases b <;>
        simp [List.zip_cons_cons, List.count_cons, List.filter_cons, ihr]

/-- Transpositions never exceed the number of matched pairs. -/
theorem jwTranspositions_le (sel1 sel2 : List Char) :
    DealMatcher.jwTranspositions sel1 sel2 ≤ min sel1.length sel2.length := by
  unfold DealMatcher.jwTranspositions
  calc (((sel1.zip sel2).filter (fun p => p.1 ≠ p.2))).length
      ≤ (sel1.zip sel2).length := List.length_filter_le _ _
    _ = min sel1.length sel2.length := List.length_zip _ _

/-- The common-prefix loop is capped by its fuel (4 in the source). -/
theorem commonPrefixGo_le (n : ℕ) :
    ∀ s t : List Char, DealMatcher.commonPrefixGo n s t ≤ n := by
  induction n with
  | zero => intro s t; simp [DealMatcher.commonPrefixGo]
  | succ n ih =>
    intro s t
    match s, t with
    | [], _ => simp [DealMatcher.commonPrefixGo]
    | _ :: _, [] => simp [DealMatcher.commonPrefixGo]
    | a :: s, b :: t =>
      unfold DealMatcher.commonPrefixGo
      split_ifs
      · exact Nat.succ_le_succ (ih s t)
      · omega

/-- Bounds for the raw Jaro score as a fact about the four counters. -/
theorem jaro_bounds (L1 L2 M T : ℕ) (hM : 1 ≤ M) (hL1 : M ≤ L1)
    (hL2 : M ≤ L2) (hT : T ≤ M) :
    0 ≤ ((M : ℚ) / (L1 : ℚ) + (M : ℚ) / (L2 : ℚ) +
        ((M : ℚ) - (T : ℚ) / 2) / (M : ℚ)) / 3 ∧
      ((M : ℚ) / (L1 : ℚ) + (M : ℚ) / (L2 : ℚ) +
        ((M : ℚ) - (T : ℚ) / 2) / (M : ℚ)) / 3 ≤ 1 := by
  have hL1q : (0 : ℚ) < L1 := by exact_mod_cast lt_of_lt_of_le hM hL1
  have hL2q : (0 : ℚ) < L2 := by exact_mod_cast lt_of_lt_of_le hM hL2
  have hMq : (0 : ℚ) < M := by exact_mod_cast hM
  have hTq : (T : ℚ) ≤ (M : ℚ) := by exact_mod_cast hT
  have hT0 : (0 : ℚ) ≤ (T : ℚ) := by positivity
  have a1 : (M : ℚ) / (L1 : ℚ) ≤ 1 := by
    rw [div_le_one hL1q]; exact_mod_cast hL1
  have a1' : 0 ≤ (M : ℚ) / (L1 : ℚ) := by positivity
  have a2 : (M : ℚ) / (L2 : ℚ) ≤ 1 := by
    rw [div_le_one hL2q]; exact_mod_cast hL2
  have a2' : 0 ≤ (M : ℚ) / (L2 : ℚ) := by positivity
  have a3 : ((M : ℚ) - (T : ℚ) / 2) / (M : ℚ) ≤ 1 := by
    rw [div_le_one hMq]; linarith
  have a3' : 0 ≤ ((M : ℚ) - (T : ℚ) / 2) / (M : ℚ) := by
    apply div_nonneg _ (le_of_lt hMq); linarith
  constructor <;> linarith

/-- The Winkler prefix boost keeps a `[0, 1]` score inside `[0, 1]` as
long as the prefix length is at most 4 (weight 0.1). -/
theorem jw_boost_bounds (j p : ℚ) (hj0 : 0 ≤ j) (hj1 : j ≤ 1)
    (hp0 : 0 ≤ p) (hp4 : p ≤ 4) :
    0 ≤ j + p * ((1 : ℚ) / 10) * (1 - j) ∧
      j + p * ((1 : ℚ) / 10) * (1 - j) ≤ 1 := by
  have h1 : 0 ≤ p * (1 - j) := mul_nonneg hp0 (by linarith)
  have h2 : 0 ≤ (10 - p) * (1 - j) :=
    mul_nonneg (by linarith) (by linarith)
  constructor <;> nlinarith

/-- C10: for every pair of input strings, `DealMatcher._levenshtein_similarity`
and `DealMatcher._jaro_winkler_similarity` each return a value in the closed
interval `[0, 1]`; in particular the Jaro-Winkler common-prefix boost (at most
4 characters at weight 0.1) never pushes the score above 1. -/
theorem C10_similarity_scores_in_unit_interval (s1 s2 : List Char) :
    (0 ≤ DealMatcher.levenshteinSimilarity s1 s2 ∧
      DealMatcher.levenshteinSimilarity s1 s2 ≤ 1) ∧
    (0 ≤ DealMatcher.jaroWinklerSimilarity s1 s2 ∧
      DealMatcher.jaroWinklerSimilarity s1 s2 ≤ 1) := by
  constructor
  · unfold DealMatcher.levenshteinSimilarity
    split_ifs with he
    · norm_num
    · push_neg at he
      obtain ⟨he1, he2⟩ := he
      have hl1 : 0 < s1.length := by
        rcases s1 with _ | ⟨a, t⟩
        · exact absurd rfl he1
        · simp
      have hmax : (0 : ℚ) < max (s1.length : ℚ) (s2.length : ℚ) :=
        lt_max_of_lt_left (by exact_mod_cast hl1)
      have hd : (DealMatcher.levDistance s1 s2 : ℚ) ≤
          max (s1.length : ℚ) (s2.length : ℚ) := by
        exact_mod_cast levDistance_le s1 s2
      have hq1 : (DealMatcher.levDistance s1 s2 : ℚ) /
          max (s1.length : ℚ) (s2.length : ℚ) ≤ 1 := by
        rw [div_le_one hmax]; exact hd
      have hq0 : 0 ≤ (DealMatcher.levDistance s1 s2 : ℚ) /
          max (s1.length : ℚ) (s2.length : ℚ) := by positivity
      constructor <;> linarith
  · unfold DealMatcher.jaroWinklerSimilarity
    dsimp only
    split_ifs with he heq hm
    · norm_num
    · norm_num
    · norm_num
    · set md : ℤ := ((max s1.length s2.length / 2 : ℕ) : ℤ) - 1 with hmd
      set r := DealMatcher.jwMatchGo s2 md s1 0
        (List.replicate s2.length false) with hr
      obtain ⟨h1, h2, h3, h4⟩ :=
        jwMatchGo_spec s2 md s1 0 (List.replicate s2.length false)
      rw [← hr] at h1 h2 h3 h4
      have h2' : r.2.1.length = s2.length := by simpa using h2
      have h4' : r.2.1.count true = r.2.2 := by
        simpa [List.count_replicate] using h4
      have hm1 : 1 ≤ r.2.2 := Nat.one_le_iff_ne_zero.mpr hm
      have hL1 : r.2.2 ≤ s1.length := by
        rw [← h3, ← h1]; exact List.count_le_length _ _
      have hL2 : r.2.2 ≤ s2.length := by
        rw [← h4', ← h2']; exact List.count_le_length _ _
      have hs1 : (DealMatcher.selectMatched s1 r.1).length = r.2.2 := by
        rw [selectMatched_length s1 r.1 h1.symm, h3]
      have hs2 : (DealMatcher.selectMatched s2 r.2.1).length = r.2.2 := by
        rw [selectMatched_length s2 r.2.1 h2'.symm, h4']
      have hT : DealMatcher.jwTranspositions
          (DealMatcher.selectMatched s1 r.1)
          (DealMatcher.selectMatched s2 r.2.1) ≤ r.2.2 := by
        have hle := jwTranspositions_le
          (DealMatcher.selectMatched s1 r.1)
          (DealMatcher.selectMatched s2 r.2.1)
        rw [hs1, hs2] at hle
        simpa using hle
      have hP : DealMatcher.commonPrefixLen s1 s2 ≤ 4 :=
        commonPrefixGo_le 4 s1 s2
      have hj := jaro_bounds s1.length s2.length r.2.2
        (DealMatcher.jwTranspositions
          (DealMatcher.selectMatched s1 r.1)
          (DealMatcher.selectMatched s2 r.2.1)) hm1 hL1 hL2 hT
      exact jw_boost_bounds _ _ hj.1 hj.2 (by positivity)
        (by exact_mod_cast hP)
